import Mathlib

/-!
Verification of the AICCA web client's real-time session subsystem.

The development shallowly embeds three TypeScript source units:

* `packages/web/src/lib/adapters/field-adapter.ts` — the field
  normalization adapter (`adaptToolResult` and its per-tool strategies);
* `packages/web/src/lib/query-client.ts` — the `SocketManager` class:
  its reconnection policy, outbound queue, chunked file upload, and the
  `handleServerMessage` protocol state machine;
* the zustand session store (`useAppStore`) — messages, analysis results
  keyed by file, file-id mappings and connection status.

JavaScript dynamic values are modelled by the inductive `JValue`
(JSON-like trees over rational numbers); `undefined` is modelled as
`Option.none` at use sites.  JavaScript `Map`s are modelled as
insertion-ordered association lists with `Map.set` replace-in-place
semantics.  Numbers are rationals; the JS `NaN` produced by coercing a
non-numeric value into arithmetic is modelled as `none` in the `JNum`
type.  Numeric-string coercion (`"5" - 0 = 5` in JS) is conservatively
modelled as NaN; no theorem below depends on a coerced string, and every
hypothesis that restricts payloads requires the relevant field to be an
actual number.
-/

namespace AICCA

/-- A JavaScript (JSON-like) runtime value.  `undefined` is represented
by absence (`Option JValue` = `none`) rather than by a constructor,
matching how the adapter code distinguishes `undefined` from `null`. -/
inductive JValue where
  | null : JValue
  | bool : Bool → JValue
  | num : ℚ → JValue
  | str : String → JValue
  | arr : List JValue → JValue
  | obj : List (String × JValue) → JValue

/-- JS truthiness of a defined value (NaN is handled at `JNum`).  A
rational is zero iff its stored (reduced-form) numerator is zero; the
numerator test is used because it reduces inside the kernel. -/
def truthy : JValue → Bool
  | .null => false
  | .bool b => b
  | .num q => q.num != 0
  | .str s => s != ""
  | .arr _ => true
  | .obj _ => true

/-- Truthiness of a possibly-undefined value. -/
def otruthy : Option JValue → Bool
  | none => false
  | some v => truthy v

/-- Property lookup `v[k]` on a defined value; non-objects have no
(modelled) properties. -/
def jget : JValue → String → Option JValue
  | .obj fs, k => (fs.find? (fun p => p.1 == k)).map (fun p => p.2)
  | _, _ => none

/-- Optional-chaining lookup `v?.[k]` on a possibly-undefined value. -/
def optGet (v : Option JValue) (k : String) : Option JValue :=
  match v with
  | none => none
  | some .null => none
  | some w => jget w k

/-- JS `.length` access: arrays and strings expose their length; on an
object it is an ordinary field lookup; on other values it is undefined. -/
def jlen : JValue → Option JValue
  | .arr xs => some (.num xs.length)
  | .str s => some (.num s.length)
  | .obj fs => (fs.find? (fun p => p.1 == "length")).map (fun p => p.2)
  | _ => none

/-- Optional-chaining `v?.length`. -/
def optLen (v : Option JValue) : Option JValue :=
  match v with
  | none => none
  | some .null => none
  | some w => jlen w

/-- JS `a || b` on possibly-undefined values. -/
def jsOr (a b : Option JValue) : Option JValue :=
  match a with
  | some v => if truthy v then some v else b
  | none => b

/-- JS `a || b` where the right operand is a defined value, so the
result is defined. -/
def jsOrD (a : Option JValue) (b : JValue) : JValue :=
  match a with
  | some v => if truthy v then v else b
  | none => b

/-- A JS number as consumed by the adapter's arithmetic: `none` is NaN. -/
abbrev JNum := Option ℚ

/-- JS `ToNumber` as exercised by the adapter's arithmetic.  Faithful
for numbers, booleans and `null`; plain objects coerce to NaN.  Strings
and arrays, which JS would coerce through string parsing, are
conservatively modelled as NaN — every theorem whose truth depends on a
coerced value assumes the value is already a number, and no
counterexample below uses a string or array where a number is due. -/
def coerceNum : JValue → JNum
  | .num q => some q
  | .bool b => some (if b then 1 else 0)
  | .null => some 0
  | .str _ => none
  | .arr _ => none
  | .obj _ => none

/-- NaN-propagating subtraction. -/
def jsub : JNum → JNum → JNum
  | some a, some b => some (a - b)
  | _, _ => none

/-- NaN-propagating multiplication. -/
def jmul : JNum → JNum → JNum
  | some a, some b => some (a * b)
  | _, _ => none

/-- NaN-propagating division.  Division by zero (JS Infinity) is mapped
to NaN; every call site below divides by a nonzero constant or by a
positive list length. -/
def jdiv : JNum → JNum → JNum
  | some a, some b => if b.num = 0 then none else some (a / b)
  | _, _ => none

/-- NaN-propagating addition. -/
def jadd : JNum → JNum → JNum
  | some a, some b => some (a + b)
  | _, _ => none

/-- `Math.min`: NaN if either argument is NaN. -/
def jmin : JNum → JNum → JNum
  | some a, some b => some (min a b)
  | _, _ => none

/-- `Math.max`: NaN if either argument is NaN. -/
def jmax : JNum → JNum → JNum
  | some a, some b => some (max a b)
  | _, _ => none

/-- `Math.round` on a nonnegative-or-any rational: floor of `q + 1/2`
(JS rounds half toward positive infinity); NaN propagates. -/
def jround : JNum → JNum
  | some q => some (⌊q + 1/2⌋ : ℤ)
  | none => none

/-- Case-insensitive-ready substring test: `s.includes(pat)`. -/
def strIncludes (s pat : String) : Bool :=
  decide (List.IsInfix pat.toList s.toList)

/-- ASCII lower-casing of one character (JS `toLowerCase` on the ASCII
range, which is all the tool names use). -/
def charLower (c : Char) : Char :=
  if c.toNat ≥ 65 && c.toNat ≤ 90 then Char.ofNat (c.toNat + 32) else c

/-- `s.toLowerCase()` (ASCII). -/
def strLower (s : String) : String := String.mk (s.data.map charLower)

/-- `s.startsWith(pat)`. -/
def strStartsWith (s pat : String) : Bool :=
  decide (List.IsPrefix pat.toList s.toList)

/-- `s.split(sep)` for a one-character separator, on the character
list. -/
def splitChar (sep : Char) : List Char → List (List Char)
  | [] => [[]]
  | c :: cs =>
    if c == sep then [] :: splitChar sep cs
    else
      match splitChar sep cs with
      | g :: gs => (c :: g) :: gs
      | [] => [[c]]

/-!  ## Field Normalization Adapter (`field-adapter.ts`)  -/

/-- One entry of `detailScores`.  The `score` is stored exactly as the
source stores it (`typeof item === 'number' ? item : item?.score || 0`),
so it is a raw `JValue`. -/
structure DetailScore where
  index : Nat
  score : JValue
  text : Option JValue

/-- The `aiDetection` component of a unified result. -/
structure AIDetection where
  score : JNum
  dtype : String
  confidence : Option JValue

/-- The `c2paValidation` component.  The source stores the raw truthy
values; only their truthiness is ever consumed (risk computation and the
spec's assertions), so they are modelled as booleans via `truthy`. -/
structure C2PAValidation where
  valid : Bool
  hasCredential : Bool
  tampering : Bool
  trustStatus : Option JValue

/-- The `metadata` component.  `anomalies` is stored raw: the source can
place a non-number there (`validation_errors?.length || 0` on an object
with a bogus `length` field), and its truthiness gates the risk term. -/
structure MetaInfo where
  anomalies : JValue
  details : List (String × Option JValue)

/-- The fields a per-tool adaptation strategy may populate
(`Partial<UnifiedAnalysisResult>` minus `riskScore`). -/
structure AdaptedFields where
  aiDetection : Option AIDetection := none
  detailScores : Option (List DetailScore) := none
  c2paValidation : Option C2PAValidation := none
  metadata : Option MetaInfo := none
  rawData : Option JValue := none

/-- `UnifiedAnalysisResult`: adapted fields plus the composite risk. -/
structure UnifiedAnalysisResult extends AdaptedFields where
  riskScore : JNum

/-- `FIELD_MAPPINGS.deepfake.score`. -/
def deepfakeScoreFields : List String := ["deepfake_score", "score", "probability"]

/-- `FIELD_MAPPINGS.deepfake.confidence` (= `ai_generated.confidence`). -/
def confidenceFields : List String := ["confidence", "certainty"]

/-- `FIELD_MAPPINGS.ai_generated.score`. -/
def aiGeneratedScoreFields : List String := ["ai_generated_score", "ai_score", "score"]

/-- `FIELD_MAPPINGS.text.score`. -/
def textScoreFields : List String := ["score", "ai_probability"]

/-- `FIELD_MAPPINGS.text.sentences`. -/
def textSentenceFields : List String := ["sentence_scores", "sentences", "details"]

/-- `FIELD_MAPPINGS.c2pa.valid`. -/
def c2paValidFields : List String := ["is_valid", "valid", "validation_status"]

/-- `FIELD_MAPPINGS.c2pa.tampering`. -/
def c2paTamperingFields : List String := ["tampering_detected", "tampered", "modified"]

/-- Walk a dotted path with optional chaining (`value = value?.[part]`,
stopping at undefined), as the inner loop of `extractField` does. -/
def walkPath : Option JValue → List String → Option JValue
  | v, [] => v
  | v, p :: ps => walkPath (optGet v p) ps

/-- Try each candidate field in order; the first defined value wins. -/
def extractFieldAux (data : Option JValue) : List String → Option JValue
  | [] => none
  | f :: fs =>
    match walkPath data (f.splitOn ".") with
    | some v => some v
    | none => extractFieldAux data fs

/-- `extractField(data, possibleFields)`: `undefined` when `data` is
falsy, otherwise the first candidate path that is defined. -/
def extractField (data : Option JValue) (possibleFields : List String) : Option JValue :=
  if otruthy data then extractFieldAux data possibleFields else none

/-- `normalizeScore(score, [min, max])`: `undefined`/`null` map to `0`;
otherwise rescale linearly to `[0,100]` and clamp.  A non-numeric score
coerces to NaN, which survives the clamp (`Math.max(0, Math.min(100,
NaN)) = NaN`). -/
def normalizeScore (score : Option JValue) (lo hi : ℚ) : JNum :=
  match score with
  | none => some 0
  | some .null => some 0
  | some v =>
    jmax (some 0) (jmin (some 100) (jmul (jdiv (jsub (coerceNum v) (some lo)) (some (hi - lo))) (some 100)))

/-- `adaptDeepfakeResult`. -/
def adaptDeepfakeResult (data : Option JValue) : AdaptedFields :=
  if otruthy (optGet data "video_analysis") then
    let va := optGet data "video_analysis"
    if otruthy (optGet va "comprehensive_mode") then
      -- NB: `a?.x || a?.error ? 0 : 50` parses as `(a?.x || a?.error) ? 0 : 50`,
      -- so each sub-score is the literal 0 or 50.
      let facialScore : ℚ :=
        if otruthy (jsOr (walkPath va ["facial_analysis", "average_deepfake_score"])
            (walkPath va ["facial_analysis", "error"])) then 0 else 50
      let aiScore : ℚ :=
        if otruthy (jsOr (walkPath va ["general_ai_analysis", "average_ai_score"])
            (walkPath va ["general_ai_analysis", "error"])) then 0 else 50
      { aiDetection := some
          { score := normalizeScore (some (.num (max facialScore aiScore))) 0 1,
            dtype := "mixed", confidence := some (.num (7/10)) },
        metadata := some
          { anomalies := if otruthy (walkPath va ["facial_analysis", "error"]) then .num 1 else .num 0,
            details := [("facial", walkPath va ["facial_analysis"]),
                        ("ai", walkPath va ["general_ai_analysis"]),
                        ("model", some (jsOrD (optGet va "model_used") (.str "comprehensive")))] },
        rawData := data }
    else
      let score := extractField va ["average_deepfake_score", "average_ai_score", "deepfake_score"]
      { aiDetection := some
          { score := normalizeScore score 0 1,
            dtype := (match optGet va "model_used" with
                      | some (.str s) => if s == "genai" then "ai_generated" else "deepfake"
                      | _ => "deepfake"),
            confidence := some (.num (8/10)) },
        rawData := data }
  else if otruthy (optGet data "sightengine_analysis") then
    let analysis := optGet data "sightengine_analysis"
    let score := jsOrD (optGet analysis "deepfake_score")
      (jsOrD (optGet analysis "ai_generated_score") (.num 0))
    { aiDetection := some
        { score := normalizeScore (some score) 0 1,
          dtype := if otruthy (optGet analysis "deepfake_score") then "deepfake" else "ai_generated",
          confidence := some (.num (9/10)) },
      rawData := data }
  else if otruthy (optGet data "error") then
    { aiDetection := some { score := some 0, dtype := "unknown", confidence := some (.num 0) },
      metadata := some { anomalies := .num 1, details := [("error", optGet data "error")] },
      rawData := data }
  else
    let score := extractField data deepfakeScoreFields
    let confidence := extractField data confidenceFields
    { aiDetection := some
        { score := normalizeScore score 0 1,
          dtype := "deepfake",
          confidence := some (jsOrD confidence (.num 0)) },
      rawData := data }

/-- `adaptAIGeneratedResult`. -/
def adaptAIGeneratedResult (data : Option JValue) : AdaptedFields :=
  let score := extractField data aiGeneratedScoreFields
  let confidence := extractField data confidenceFields
  { aiDetection := some
      { score := normalizeScore score 0 1,
        dtype := "ai_generated",
        confidence := some (jsOrD confidence (.num 0)) },
    rawData := data }

/-- `sentences?.map(...)` of `adaptTextResult`.  In JS a defined,
non-null, non-array `sentences` would throw a `TypeError` at `.map`;
that case is modelled as no detail scores and excluded by hypothesis in
every theorem that quantifies over payloads. -/
def textDetailScores (sentences : Option JValue) : Option (List DetailScore) :=
  match sentences with
  | some (.arr xs) =>
    some ((List.range xs.length).zip xs |>.map (fun p =>
      { index := p.1,
        score := (match p.2 with
                  | .num q => .num q
                  | v => jsOrD (jget v "score") (.num 0)),
        text := optGet (some p.2) "text" }))
  | _ => none

/-- `adaptTextResult`. -/
def adaptTextResult (data : Option JValue) : AdaptedFields :=
  let score := extractField data textScoreFields
  let sentences := extractField data textSentenceFields
  { aiDetection := some
      { score := normalizeScore score 0 1,
        dtype := "ai_generated",
        confidence := some (.num 0) },
    detailScores := textDetailScores sentences,
    rawData := data }

/-- `adaptC2PAResult`. -/
def adaptC2PAResult (data : Option JValue) : AdaptedFields :=
  if otruthy (optGet data "validation_report") then
    let report := optGet data "validation_report"
    let hasCredential := (optGet report "manifest_store").isSome || otruthy (optGet data "has_manifest")
    let isValid := otruthy (optGet report "is_valid") ||
      (hasCredential && !(otruthy (optGet report "validation_errors")))
    { c2paValidation := some
        { valid := isValid,
          hasCredential := hasCredential,
          tampering := otruthy (optGet report "tampering_detected"),
          trustStatus := some (jsOrD (optGet report "trust_status") (.str "unknown")) },
      metadata := some
        { anomalies := jsOrD (optLen (optGet report "validation_errors")) (.num 0),
          details := [("manifest_id", optGet report "manifest_id"),
                      ("errors", optGet report "validation_errors")] },
      rawData := data }
  else if otruthy (jsOr (optGet data "error")
      (some (.bool (match optGet data "status" with
                    | some (.str s) => s == "error"
                    | _ => false)))) then
    { c2paValidation := some
        { valid := false, hasCredential := false, tampering := false,
          trustStatus := some (.str "error") },
      metadata := some
        { anomalies := .num 1,
          details := [("error", jsOr (optGet data "error") (optGet data "message"))] },
      rawData := data }
  else
    let valid := extractField data c2paValidFields
    let tampering := extractField data c2paTamperingFields
    { c2paValidation := some
        { valid := otruthy valid,
          hasCredential := (optGet data "manifest_store").isSome || otruthy (optGet data "has_manifest"),
          tampering := otruthy tampering,
          trustStatus := walkPath data ["validation_analysis", "trust_status"] },
      rawData := data }

/-- The `scores` array `calculateRiskScore` accumulates: the
AI-detection score if present; 80 for a failed/tampered credential, 20
for a present valid one; `min(100, anomalies × 10)` when `anomalies` is
truthy. -/
def riskScoresOf (r : AdaptedFields) : List JNum :=
  (match r.aiDetection with
   | some ad => [ad.score]
   | none => []) ++
  (match r.c2paValidation with
   | some c =>
     if !c.valid || c.tampering then [some 80]
     else if c.hasCredential && c.valid then [some 20]
     else []
   | none => []) ++
  (match r.metadata with
   | some m =>
     if truthy m.anomalies then [jmin (some 100) (jmul (coerceNum m.anomalies) (some 10))]
     else []
   | none => [])

/-- The final reduction of `calculateRiskScore`: the rounded arithmetic
mean of the accumulated scores, or the neutral 50 when none are
present.  A NaN contribution makes the whole mean NaN. -/
def riskFromScores (scores : List JNum) : JNum :=
  if scores.length > 0 then
    jround (jdiv (scores.foldl jadd (some 0)) (some (scores.length : ℚ)))
  else
    some 50

/-- `calculateRiskScore`. -/
def calculateRiskScore (r : AdaptedFields) : JNum :=
  riskFromScores (riskScoresOf r)

/-- `adaptToolResult(toolName, data)`: choose the strategy by
case-insensitive substring match, then attach the composite risk. -/
def adaptToolResult (toolName : String) (data : Option JValue) : UnifiedAnalysisResult :=
  let toolNameLower := strLower toolName
  let base : AdaptedFields :=
    if strIncludes toolNameLower "deepfake" then adaptDeepfakeResult data
    else if strIncludes toolNameLower "ai" || strIncludes toolNameLower "detect" then
      adaptAIGeneratedResult data
    else if strIncludes toolNameLower "text" then adaptTextResult data
    else if strIncludes toolNameLower "c2pa" then adaptC2PAResult data
    else { rawData := data }
  { base with riskScore := calculateRiskScore base }

/-!  ## Connection Manager (`query-client.ts`, `SocketManager`)

`SocketManager`'s connection-level fields are modelled by `SockState`.
Transport facts supplied by the browser (a created socket object, its
`readyState`, the delivery of `open`/`close` events to the handlers
attached to it) appear as explicit fields and explicit event steps.
The wire is observed through `sent`, the ordered log of
`socket.send(...)` calls. -/

/-- An outbound `ClientMessage` envelope (the fields the modelled code
writes; all others default to absent). -/
structure ClientMessage where
  type : String
  message : Option String := none
  session_id : Option String := none
  content : Option String := none
  source_type : Option String := none
  upload_id : Option String := none
  chunk_index : Option Nat := none
  total_chunks : Option Nat := none
  data : Option String := none
  file_name : Option String := none
  file_size : Option Nat := none
  file_type : Option String := none
  tool_name : Option String := none
deriving DecidableEq

/-- Connection-level state of the `SocketManager` singleton plus the
observable wire log. -/
structure SockState where
  reconnectAttempts : Nat
  messageQueue : List ClientMessage
  connected : Bool
  /-- a `WebSocket` object exists (`this.socket !== null`). -/
  socketPresent : Bool
  /-- its `readyState === WebSocket.OPEN` (transport fact). -/
  socketOpen : Bool
  /-- the store's `connectionStatus`. -/
  status : String
  /-- ordered log of frames handed to `socket.send`. -/
  sent : List ClientMessage
deriving DecidableEq

/-- `maxReconnectAttempts`. -/
def maxReconnectAttempts : Nat := 5

/-- `reconnectDelays` (milliseconds). -/
def reconnectDelays : List Nat := [1000, 2000, 4000, 8000, 16000]

/-- `send(message)`: transmit when the socket exists and is open,
otherwise append to the outbound FIFO queue. -/
def send (message : ClientMessage) (s : SockState) : SockState :=
  if s.socketPresent && s.socketOpen then
    { s with sent := s.sent ++ [message] }
  else
    { s with messageQueue := s.messageQueue ++ [message] }

/-- `handleReconnect()`: returns the new state and the delay (ms) of
the `setTimeout`-scheduled `connect`, or `none` when no attempt is
scheduled (retry budget exhausted → terminal `error` status). -/
def handleReconnect (s : SockState) : SockState × Option Nat :=
  if s.reconnectAttempts ≥ maxReconnectAttempts then
    ({ s with status := "error" }, none)
  else
    let delay := reconnectDelays.getD s.reconnectAttempts 0
    ({ s with reconnectAttempts := s.reconnectAttempts + 1 }, some delay)

/-- The `socket.onclose` handler: mark disconnected, then run the
reconnection policy. -/
def onclose (s : SockState) : SockState × Option Nat :=
  handleReconnect { s with connected := false, status := "disconnected" }

/-- One iteration bound of the `flushMessageQueue` while-loop; the fuel
is the initial queue length, which suffices because the loop only runs
with an open socket (each iteration then shortens the queue by one). -/
def flushLoop : Nat → SockState → SockState
  | 0, s => s
  | fuel + 1, s =>
    match s.messageQueue with
    | [] => s
    | message :: rest =>
      if s.connected then flushLoop fuel (send message { s with messageQueue := rest })
      else s

/-- `flushMessageQueue()`. -/
def flushMessageQueue (s : SockState) : SockState :=
  flushLoop s.messageQueue.length s

/-- The `socket.onopen` handler.  The transport firing `open` implies a
socket exists and is now open, so both transport facts are recorded
here; the handler itself sets `connected`, resets the attempt counter,
publishes `connected` status and flushes the queue. -/
def onopen (s : SockState) : SockState :=
  flushMessageQueue
    { s with connected := true, reconnectAttempts := 0, status := "connected",
             socketPresent := true, socketOpen := true }

/-- `disconnect()`: when a socket exists, `socket.close()` is called,
the reference is dropped and the status is published as disconnected.
The returned flag records the transport fact that a close event will
subsequently be delivered to the handlers still attached to the closed
socket object (the code installs no user-initiated-close guard). -/
def disconnect (s : SockState) : SockState × Bool :=
  if s.socketPresent then
    ({ s with socketPresent := false, socketOpen := false, connected := false,
              status := "disconnected" }, true)
  else (s, false)

/-- A freshly connected manager (after a successful `connect` + `open`
with nothing queued or sent yet). -/
def connectedSockState : SockState :=
  { reconnectAttempts := 0, messageQueue := [], connected := true,
    socketPresent := true, socketOpen := true, status := "connected", sent := [] }

/-!  ## Chunked Transfer Engine (`SocketManager.sendFile`)  -/

/-- `CHUNK_SIZE` (1 MiB). -/
def CHUNK_SIZE : Nat := 1024 * 1024

/-- `totalChunks = Math.ceil(file.size / CHUNK_SIZE)`. -/
def totalChunksFor (size : Nat) : Nat := (size + CHUNK_SIZE - 1) / CHUNK_SIZE

/-- The ordered `file_chunk` envelopes `sendFile` emits for a file of
the given name/size/type.  `chunkData i` stands for the base64 content
of the `i`-th 1 MiB slice (file bytes are opaque to this model). -/
def sendFileEnvelopes (name : String) (size : Nat) (ftype : String)
    (chunkData : Nat → String) (uploadId : String) : List ClientMessage :=
  (List.range (totalChunksFor size)).map (fun i =>
    { type := "file_chunk",
      upload_id := some uploadId,
      chunk_index := some i,
      total_chunks := some (totalChunksFor size),
      data := some (chunkData i),
      file_name := some name,
      file_size := some size,
      file_type := some ftype })

/-- The lifecycle of one `sendFile` promise. -/
inductive UploadStatus where
  | pending : UploadStatus
  | resolved : Option String → UploadStatus
  | rejected : Option String → UploadStatus
deriving DecidableEq

/-!  ## Inbound envelope  -/

/-- An inbound `ServerMessage`: the discriminator plus the fields the
modelled handlers read (any of which may be absent — the source types
them as `any`). -/
structure ServerMsg where
  type : String
  content : Option String := none
  tool_name : Option String := none
  parameters : Option JValue := none
  original_args : Option JValue := none
  result : Option JValue := none
  request_id : Option String := none
  status : Option String := none
  message : Option String := none
  upload_id : Option String := none
  file_id : Option String := none
  file_info : Option JValue := none

/-- The per-upload `message` listener installed by `sendFile`: a
correlated `upload_complete` resolves the promise with the carried file
id, a correlated `error` rejects it, anything else leaves it pending;
once settled the listener is removed, so the status is final. -/
def handleUploadResult (uploadId : String) (st : UploadStatus) (ev : ServerMsg) : UploadStatus :=
  match st with
  | .pending =>
    if ev.type == "upload_complete" && ev.upload_id == some uploadId then
      .resolved ev.file_id
    else if ev.type == "error" && ev.upload_id == some uploadId then
      .rejected ev.message
    else .pending
  | st => st

/-!  ## Session Store (`useAppStore`)

The store's conversation/analysis state.  `selectedFiles` (browser
`File` objects) and `activeTools` are omitted: no modelled code path
reads or writes them.  JS `Map`s are insertion-ordered association
lists; `mapSet` replaces in place like `Map.set`. -/

/-- JS `Map.get`. -/
def mapGet (m : List (String × α)) (k : String) : Option α :=
  (m.find? (fun p => p.1 == k)).map (fun p => p.2)

/-- JS `Map.set`: overwrite in place when the key exists, else append. -/
def mapSet (m : List (String × α)) (k : String) (v : α) : List (String × α) :=
  if m.any (fun p => p.1 == k) then
    m.map (fun p => if p.1 == k then (k, v) else p)
  else m ++ [(k, v)]

/-- A `ConversationMessage`.  `status`, `tool`, `args` and `level` model
the optional `metadata` attributes the handlers read and write. -/
structure Message where
  id : String
  type : String
  content : String
  status : Option String := none
  tool : Option String := none
  args : Option JValue := none
  level : Option String := none
  timestamp : String := ""

/-- An `AnalysisResult` as stored (`type` is the tool name, which the
source copies from the possibly-absent `data.tool_name`). -/
structure AnalysisResult where
  id : String
  type : Option String
  content : Option JValue
  timestamp : String := ""
  fileName : Option String := none
  fileId : Option String := none

/-- The modelled `useAppStore` state. -/
structure AppState where
  messages : List Message
  currentAnalysis : Option AnalysisResult
  analysisHistory : List AnalysisResult
  analysisResultsByFile : List (String × List AnalysisResult)
  currentFileKey : Option String
  currentToolType : Option String
  connectionStatus : String
  fileIdMap : List (String × String)

/-- The store's initial (and page-reload) state. -/
def initialAppState : AppState :=
  { messages := [], currentAnalysis := none, analysisHistory := [],
    analysisResultsByFile := [], currentFileKey := none, currentToolType := none,
    connectionStatus := "disconnected", fileIdMap := [] }

/-- `addMessage`. -/
def addMessage (message : Message) (st : AppState) : AppState :=
  { st with messages := st.messages ++ [message] }

/-- `updateMessage(id, updatedMessage)`. -/
def updateMessageList (id : String) (updatedMessage : Message) (l : List Message) : List Message :=
  l.map (fun msg => if msg.id == id then updatedMessage else msg)

/-- `updateMessage` on the store. -/
def updateMessage (id : String) (updatedMessage : Message) (st : AppState) : AppState :=
  { st with messages := updateMessageList id updatedMessage st.messages }

/-- `clearMessages`. -/
def clearMessages (st : AppState) : AppState := { st with messages := [] }

/-- JS string truthiness of a possibly-absent string. -/
def strTruthy : Option String → Bool
  | some s => s != ""
  | none => false

/-- JS `a || b` on possibly-absent strings. -/
def jsOrStr (a b : Option String) : Option String :=
  if strTruthy a then a else b

/-- The file key `analysis.fileId || analysis.fileName || 'unknown'`. -/
def fileKeyOf (a : AnalysisResult) : String :=
  match jsOrStr a.fileId (jsOrStr a.fileName (some "unknown")) with
  | some s => s
  | none => "unknown"

/-- `setCurrentAnalysis`: record the current analysis and, per file
key, replace any previous result of the same tool with the new one. -/
def setCurrentAnalysis (analysis : Option AnalysisResult) (st : AppState) : AppState :=
  let st1 := { st with currentAnalysis := analysis }
  match analysis with
  | none => st1
  | some a =>
    let fileKey := fileKeyOf a
    let existing := (mapGet st1.analysisResultsByFile fileKey).getD []
    let filteredExisting := existing.filter (fun r => r.type != a.type)
    let newMap := mapSet st1.analysisResultsByFile fileKey (filteredExisting ++ [a])
    { st1 with analysisResultsByFile := newMap }

/-- `addAnalysisHistory`. -/
def addAnalysisHistory (analysis : AnalysisResult) (st : AppState) : AppState :=
  { st with analysisHistory := st.analysisHistory ++ [analysis] }

/-- `setCurrentFileKey`. -/
def setCurrentFileKey (key : Option String) (st : AppState) : AppState :=
  { st with currentFileKey := key }

/-- `setCurrentToolType`. -/
def setCurrentToolType (t : Option String) (st : AppState) : AppState :=
  { st with currentToolType := t }

/-- `setConnectionStatus`. -/
def setConnectionStatus (status : String) (st : AppState) : AppState :=
  { st with connectionStatus := status }

/-- `addFileMapping`. -/
def addFileMapping (filename : String) (fileId : String) (st : AppState) : AppState :=
  { st with fileIdMap := mapSet st.fileIdMap filename fileId }

/-- `resetAll` (also the effect of `onRehydrateStorage` on reload). -/
def resetAll (_st : AppState) : AppState := initialAppState

/-- Exactly the states the store can be driven into through its public
mutators, starting from the initial state. -/
inductive Reachable : AppState → Prop where
  | init : Reachable initialAppState
  | addMessage (m : Message) {s : AppState} :
      Reachable s → Reachable (addMessage m s)
  | updateMessage (i : String) (m : Message) {s : AppState} :
      Reachable s → Reachable (updateMessage i m s)
  | clearMessages {s : AppState} : Reachable s → Reachable (clearMessages s)
  | setCurrentAnalysis (a : Option AnalysisResult) {s : AppState} :
      Reachable s → Reachable (setCurrentAnalysis a s)
  | addAnalysisHistory (a : AnalysisResult) {s : AppState} :
      Reachable s → Reachable (addAnalysisHistory a s)
  | setCurrentFileKey (k : Option String) {s : AppState} :
      Reachable s → Reachable (setCurrentFileKey k s)
  | setCurrentToolType (t : Option String) {s : AppState} :
      Reachable s → Reachable (setCurrentToolType t s)
  | setConnectionStatus (c : String) {s : AppState} :
      Reachable s → Reachable (setConnectionStatus c s)
  | addFileMapping (n i : String) {s : AppState} :
      Reachable s → Reachable (addFileMapping n i s)
  | resetAll {s : AppState} : Reachable s → Reachable (resetAll s)

/-- The §3 invariant: under each file key there are no two results with
the same `toolType`. -/
def ResultsInv (st : AppState) : Prop :=
  ∀ e ∈ st.analysisResultsByFile, (e.2.map (fun r => r.type)).Nodup

/-!  ## Message Protocol State Machine (`SocketManager.handleServerMessage`)

The handler mutates the store and the manager's
`currentStreamingMessageId`.  Freshly minted identifiers
(`msg-${Date.now()}-${random}` and the like) are supplied by the
environment as the `gen1`/`gen2` parameters, and `new Date()` as `now`;
theorems that need uniqueness assume the supplied id is fresh.  A JS
`undefined` interpolated into a string renders as `"undefined"`, which
is how the `.getD "undefined"` defaults below arise. -/

/-- The manager state seen by the protocol handler. -/
structure FullState where
  app : AppState
  currentStreamingMessageId : Option String

/-- Fresh manager + store. -/
def initialFullState : FullState :=
  { app := initialAppState, currentStreamingMessageId := none }

/-- `path.split('/').pop() || path.split('\\').pop() || path`. -/
def lastSegment (path : String) : String :=
  let a := String.mk ((splitChar '/' path.data).getLastD [])
  if a != "" then a
  else
    let b := String.mk ((splitChar '\\' path.data).getLastD [])
    if b != "" then b else path

/-- The `for (const path of possiblePaths)` loop of the `tool_result`
case: take the first truthy string; a `file:<id>` value yields the id
and its reverse lookup in the file-id map (first entry in insertion
order, `"unknown"` when absent), any other string yields its final path
segment. -/
def scanPaths (fileIdMap : List (String × String)) : List (Option JValue) → String × Option String
  | [] => ("unknown", none)
  | p :: rest =>
    match p with
    | some (.str s) =>
      if s != "" then
        if strStartsWith s "file:" then
          let fid := s.drop 5
          let name := ((fileIdMap.find? (fun q => q.2 == fid)).map (fun q => q.1)).getD "unknown"
          (name, some fid)
        else (lastSegment s, none)
      else scanPaths fileIdMap rest
    | _ => scanPaths fileIdMap rest

/-- A truthy string value.  The source's `if (data.result?.file_name)`
checks only truthiness, so a truthy non-string would be coerced into the
file name by JS; that exotic case is not modelled and no claim exercises
it. -/
def truthyStr : Option JValue → Option String
  | some (.str s) => if s != "" then some s else none
  | _ => none

/-- File-key resolution of the `tool_result` case: original invocation
arguments first, then result-embedded fields, then the id backfill from
the file-id map. -/
def resolveToolResultFile (d : ServerMsg) (fileIdMap : List (String × String)) : String × Option String :=
  let step1 :=
    if otruthy d.original_args then
      scanPaths fileIdMap
        [optGet d.original_args "image_path",
         optGet d.original_args "media_path",
         optGet d.original_args "file_path",
         optGet d.original_args "content"]
    else ("unknown", none)
  let step2 :=
    if step1.1 == "unknown" then
      match truthyStr (optGet d.result "file_name") with
      | some s => (s, step1.2)
      | none =>
        match truthyStr (optGet d.result "media_path") with
        | some s => (s, step1.2)
        | none =>
          match truthyStr (walkPath d.result ["local_analysis", "file_path"]) with
          | some s => (s, step1.2)
          | none => step1
    else step1
  if !(strTruthy step2.2) && step2.1 != "unknown" && (mapGet fileIdMap step2.1).isSome then
    (step2.1, mapGet fileIdMap step2.1)
  else step2

/-- The `AnalysisResult` the `tool_result` case builds
(`fileId: fileId || fileName`). -/
def mkToolResultAnalysis (g now : String) (d : ServerMsg) (fileIdMap : List (String × String)) :
    AnalysisResult :=
  let r := resolveToolResultFile d fileIdMap
  { id := g, type := d.tool_name, content := d.result, timestamp := now,
    fileName := some r.1, fileId := jsOrStr r.2 (some r.1) }

/-- The store key a `tool_result` event lands under (independent of the
minted id and timestamp). -/
def toolResultKey (d : ServerMsg) (fileIdMap : List (String × String)) : String :=
  fileKeyOf (mkToolResultAnalysis "" "" d fileIdMap)

/-- `tool_name?.toLowerCase().includes('detect'/'verify'/'c2pa')`. -/
def isDetectionTool (toolName : Option String) : Bool :=
  match toolName with
  | some t =>
    strIncludes (strLower t) "detect" || strIncludes (strLower t) "verify" ||
      strIncludes (strLower t) "c2pa"
  | none => false

/-- `messages.findLast(p)`. -/
def findLastMsg (p : Message → Bool) (l : List Message) : Option Message :=
  l.reverse.find? p

/-- The predicate locating the tool-call message a result or error
correlates with. -/
def matchesPendingTool (toolName : Option String) (m : Message) : Bool :=
  m.type == "tool-call" && m.tool == toolName &&
    (m.status == some "pending" || m.status == some "executing")

/-- `chat_complete`'s sweep: every still-pending/executing tool-call is
marked `success`, one `updateMessage` per matching message. -/
def completePendingTools (messages : List Message) : List Message :=
  let pendingTools := messages.filter (fun m =>
    m.type == "tool-call" && (m.status == some "executing" || m.status == some "pending"))
  pendingTools.foldl
    (fun acc toolMessage =>
      updateMessageList toolMessage.id { toolMessage with status := some "success" } acc)
    messages

/-- The `tool_result` case of `handleServerMessage`: resolve the file
key, build and store the `AnalysisResult`, publish the current file
key, append detection-tool results to the history, and mark the most
recent matching pending/executing tool-call message as succeeded. -/
def toolResultBranch (gen1 now : String) (data : ServerMsg) (s : FullState) : FullState :=
  let r := resolveToolResultFile data s.app.fileIdMap
  let analysisResult := mkToolResultAnalysis gen1 now data s.app.fileIdMap
  let app1 := setCurrentAnalysis (some analysisResult) s.app
  let app2 :=
    if strTruthy r.2 || r.1 != "unknown" then
      setCurrentFileKey (jsOrStr r.2 (some r.1)) app1
    else app1
  let app3 :=
    if isDetectionTool data.tool_name then addAnalysisHistory analysisResult app2 else app2
  let app4 :=
    match findLastMsg (matchesPendingTool data.tool_name) app3.messages with
    | some toolMessage =>
      updateMessage toolMessage.id { toolMessage with status := some "success" } app3
    | none => app3
  { s with app := app4 }

/-- `handleServerMessage(data)`.  `gen1` is the identifier minted in the
branch (message id, analysis id, ...), `gen2` the second identifier the
`tool_call` branch mints for the post-tool stream, `now` the current
timestamp.  The function is total: every branch, including the default
for unrecognized types, returns normally. -/
def handleServerMessage (gen1 gen2 now : String) (data : ServerMsg) (s : FullState) : FullState :=
  if data.type == "connection" then s
  else if data.type == "chat_start" then
    let m : Message :=
      { id := gen1, type := "agent-thinking", content := "考え中...", timestamp := now }
    { currentStreamingMessageId := some gen1, app := addMessage m s.app }
  else if data.type == "chat_content" then
    match s.currentStreamingMessageId with
    | some cid =>
      if cid != "" then
        match s.app.messages.find? (fun m => m.id == cid) with
        | some targetMessage =>
          let isFirstContent := targetMessage.type == "agent-thinking"
          let fragment := data.content.getD "undefined"
          let newContent := if isFirstContent then fragment else targetMessage.content ++ fragment
          let updated := { targetMessage with type := "agent-reply", content := newContent }
          { s with app := updateMessage cid updated s.app }
        | none =>
          let m : Message :=
            { id := cid, type := "agent-reply", content := data.content.getD "undefined",
              timestamp := now }
          { s with app := addMessage m s.app }
      else s
    | none => s
  else if data.type == "chat_complete" then
    { currentStreamingMessageId := none,
      app := { s.app with messages := completePendingTools s.app.messages } }
  else if data.type == "tool_call" then
    let s1 := if strTruthy s.currentStreamingMessageId then
        { s with currentStreamingMessageId := none }
      else s
    let m : Message :=
      { id := gen1, type := "tool-call",
        content := "ツール実行: " ++ data.tool_name.getD "undefined",
        status := some "executing", tool := data.tool_name, args := data.parameters,
        timestamp := now }
    let s2 := { s1 with app := addMessage m s1.app }
    { s2 with currentStreamingMessageId := some gen2 }
  else if data.type == "tool_result" then
    toolResultBranch gen1 now data s
  else if data.type == "analysis_start" then
    let analysisMessageId :=
      match jsOrStr data.request_id (some gen1) with
      | some x => x
      | none => gen1
    let m : Message :=
      { id := analysisMessageId, type := "agent-thinking", content := "分析中...",
        timestamp := now }
    { currentStreamingMessageId := some analysisMessageId, app := addMessage m s.app }
  else if data.type == "analysis_progress" then
    let m : Message :=
      { id := gen1, type := "system-alert", content := data.status.getD "undefined",
        level := some "info", timestamp := now }
    { s with app := addMessage m s.app }
  else if data.type == "analysis_tool_result" then
    let toolAnalysisResult : AnalysisResult :=
      { id := gen1, type := data.tool_name, content := data.result, timestamp := now }
    let app1 := setCurrentAnalysis (some toolAnalysisResult) s.app
    let app2 :=
      if isDetectionTool data.tool_name then addAnalysisHistory toolAnalysisResult app1 else app1
    { s with app := app2 }
  else if data.type == "analysis_complete" then
    let s1 : FullState :=
      match s.currentStreamingMessageId with
      | some cid =>
        if cid != "" then
          let app1 :=
            match s.app.messages.find? (fun m => m.id == cid) with
            | some targetMessage =>
              if targetMessage.type == "agent-thinking" then
                let doneText := "分析が完了しました。結果をご確認ください。"
                let updated := { targetMessage with type := "agent-reply", content := doneText }
                updateMessage cid updated s.app
              else s.app
            | none => s.app
          { app := app1, currentStreamingMessageId := none }
        else s
      | none => s
    let completeResult : AnalysisResult :=
      { id := (match jsOrStr data.request_id (some gen1) with | some x => x | none => gen1),
        type := some "complete", content := data.result, timestamp := now }
    let app2 := addAnalysisHistory completeResult (setCurrentAnalysis (some completeResult) s1.app)
    { s1 with app := app2 }
  else if data.type == "error" then
    let m : Message :=
      { id := gen1, type := "system-alert",
        content := "エラー: " ++ data.message.getD "undefined",
        level := some "error", timestamp := now }
    let app1 := addMessage m s.app
    let app2 :=
      if strTruthy data.tool_name then
        match findLastMsg (matchesPendingTool data.tool_name) app1.messages with
        | some toolMessage =>
          updateMessage toolMessage.id { toolMessage with status := some "error" } app1
        | none => app1
      else app1
    { s with app := app2 }
  else if data.type == "upload_progress" then s
  else if data.type == "upload_complete" then
    match data.file_id with
    | some fid =>
      if fid != "" && otruthy data.file_info then
        match truthyStr (optGet data.file_info "name") with
        | some name => { s with app := addFileMapping name fid s.app }
        | none => s
      else s
    | none => s
  else if data.type == "pong" then s
  else s

/-- The discriminators `handleServerMessage` recognizes. -/
def recognizedTypes : List String :=
  ["connection", "chat_start", "chat_content", "chat_complete", "tool_call",
   "tool_result", "analysis_start", "analysis_progress", "analysis_tool_result",
   "analysis_complete", "error", "upload_progress", "upload_complete", "pong"]

/-!  ## Auxiliary definitions used only in the statements below  -/

/-- One failed automatic-reconnection round: the scheduled `connect`
produces a transport whose close is delivered back to the `onclose`
handler. -/
def failStep (s : SockState) : SockState := (onclose s).1

/-- `n` consecutive failed rounds. -/
def failSeq (n : Nat) (s : SockState) : SockState := failStep^[n] s

/-- The delay (ms) scheduled before the `n`-th automatic attempt of an
uninterrupted failure sequence, `none` when no attempt is scheduled. -/
def nthReconnectDelay (n : Nat) (s : SockState) : Option Nat :=
  (onclose (failSeq (n - 1) s)).2

/-- Is this possibly-absent value a number as far as `normalizeScore`'s
arithmetic is concerned (`undefined`/`null` map to 0 there)? -/
def numericOpt (x : Option JValue) : Bool :=
  match x with
  | none => true
  | some .null => true
  | some v => (coerceNum v).isSome

/-- Payload discipline under which the composite risk score is provably
in `[0,100]`: every value the chosen strategy feeds into score
arithmetic is an actual number (or absent), the c2pa anomaly count is a
nonnegative number when truthy, and the text strategy's sentence list —
at which JS would otherwise throw — is an array when present.  Outside
this discipline NaN or a negative anomaly count escapes into
`riskScore` (see the counterexample to the original claim).  This is
the deepfake strategy part. -/
def deepfakeInputsNumeric (data : Option JValue) : Bool :=
  if otruthy (optGet data "video_analysis") then
    if otruthy (optGet (optGet data "video_analysis") "comprehensive_mode") then true
    else numericOpt (extractField (optGet data "video_analysis")
      ["average_deepfake_score", "average_ai_score", "deepfake_score"])
  else if otruthy (optGet data "sightengine_analysis") then
    (coerceNum (jsOrD (optGet (optGet data "sightengine_analysis") "deepfake_score")
      (jsOrD (optGet (optGet data "sightengine_analysis") "ai_generated_score") (.num 0)))).isSome
  else if otruthy (optGet data "error") then true
  else numericOpt (extractField data deepfakeScoreFields)

/-- The text strategy part of the payload discipline: numeric score and
an array (or nothing) where JS maps over the sentences. -/
def textInputsOk (data : Option JValue) : Bool :=
  numericOpt (extractField data textScoreFields) &&
    (match extractField data textSentenceFields with
     | none => true
     | some .null => true
     | some (.arr _) => true
     | some _ => false)

/-- The c2pa strategy part of the payload discipline: the anomaly count,
when truthy, is a nonnegative number. -/
def c2paInputsOk (data : Option JValue) : Bool :=
  if otruthy (optGet data "validation_report") then
    !truthy (jsOrD (optLen (optGet (optGet data "validation_report") "validation_errors")) (.num 0)) ||
      (match coerceNum (jsOrD (optLen (optGet (optGet data "validation_report") "validation_errors")) (.num 0)) with
       | some q => decide (0 ≤ q)
       | none => false)
  else true

/-- The whole payload discipline, dispatched like `adaptToolResult`. -/
def riskInputsNumeric (toolName : String) (data : Option JValue) : Bool :=
  let lower := strLower toolName
  if strIncludes lower "deepfake" then deepfakeInputsNumeric data
  else if strIncludes lower "ai" || strIncludes lower "detect" then
    numericOpt (extractField data aiGeneratedScoreFields)
  else if strIncludes lower "text" then textInputsOk data
  else if strIncludes lower "c2pa" then c2paInputsOk data
  else true

/-- Convenience constructor for the messages the handler mints (no
metadata fields). -/
def mkMsg (id ty content ts : String) : Message :=
  { id := id, type := ty, content := content, timestamp := ts }

/-- The streaming update `chat_content` applies to the found target
message: convert to `agent-reply`, replacing the content on the first
fragment and appending on later ones. -/
def streamUpdated (target : Message) (frag : String) : Message :=
  let newContent := if target.type == "agent-thinking" then frag else target.content ++ frag
  { target with type := "agent-reply", content := newContent }

/-- A concrete `tool_result` event used to instantiate the C2 theorem
(first event, payload "r1"). -/
def c2Event1 : ServerMsg :=
  { type := "tool_result", tool_name := some "c2pa_verify",
    original_args := some (.obj [("image_path", .str "up/b.png")]),
    result := some (.str "r1") }

/-- The second event: same tool, same file, payload "r2". -/
def c2Event2 : ServerMsg :=
  { type := "tool_result", tool_name := some "c2pa_verify",
    original_args := some (.obj [("image_path", .str "up/b.png")]),
    result := some (.str "r2") }

/-!  # Theorems

Helper lemmas first, then one theorem per claim (with a closed witness
where the claim theorem carries hypotheses). -/

theorem normalizeScore_bounds (x : Option JValue) (h : numericOpt x = true) :
    ∃ q : ℚ, normalizeScore x 0 1 = some q ∧ 0 ≤ q ∧ q ≤ 100 := by
  rcases x with _ | v
  · exact ⟨0, rfl, le_refl 0, by norm_num⟩
  rcases v with _ | b | q0 | s | xs | fs
  · exact ⟨0, rfl, le_refl 0, by norm_num⟩
  · refine ⟨max 0 (min 100 ((if b then (1:ℚ) else 0) / 1 * 100)), ?_, le_max_left _ _, ?_⟩
    · simp [normalizeScore, coerceNum, jsub, jdiv, jmul, jmin, jmax]
    · exact max_le (by norm_num) (min_le_left _ _)
  · refine ⟨max 0 (min 100 (q0 / 1 * 100)), ?_, le_max_left _ _, ?_⟩
    · simp [normalizeScore, coerceNum, jsub, jdiv, jmul, jmin, jmax]
    · exact max_le (by norm_num) (min_le_left _ _)
  · simp [numericOpt, coerceNum] at h
  · simp [numericOpt, coerceNum] at h
  · simp [numericOpt, coerceNum] at h

theorem foldl_jadd_bounds (l : List JNum)
    (h : ∀ x ∈ l, ∃ q : ℚ, x = some q ∧ 0 ≤ q ∧ q ≤ 100) :
    ∀ a : ℚ, ∃ s : ℚ, l.foldl jadd (some a) = some s ∧ a ≤ s ∧ s ≤ a + 100 * l.length := by
  induction l with
  | nil => intro a; exact ⟨a, rfl, le_refl a, by simp⟩
  | cons x xs ih =>
    intro a
    obtain ⟨q, hx, hq0, hq100⟩ := h x (List.mem_cons_self _ _)
    obtain ⟨s, hs, hs1, hs2⟩ := ih (fun y hy => h y (List.mem_cons_of_mem _ hy)) (a + q)
    refine ⟨s, ?_, by linarith, ?_⟩
    · simpa [hx, jadd] using hs
    · have hlen : ((x :: xs).length : ℚ) = (xs.length : ℚ) + 1 := by
        simp [List.length_cons]
      rw [hlen]; linarith

theorem riskFromScores_bounds (scores : List JNum)
    (h : ∀ x ∈ scores, ∃ q : ℚ, x = some q ∧ 0 ≤ q ∧ q ≤ 100) :
    ∃ q : ℚ, riskFromScores scores = some q ∧ 0 ≤ q ∧ q ≤ 100 := by
  by_cases hlen : scores.length > 0
  · obtain ⟨s, hs, hs0, hs100⟩ := foldl_jadd_bounds scores h 0
    have hlq : (0:ℚ) < (scores.length : ℚ) := by exact_mod_cast hlen
    have hnum : ((scores.length : ℚ)).num ≠ 0 := Rat.num_ne_zero.mpr (ne_of_gt hlq)
    have hne : scores ≠ [] := List.ne_nil_of_length_pos hlen
    have hmean0 : (0:ℚ) ≤ s / (scores.length : ℚ) := div_nonneg hs0 (le_of_lt hlq)
    have hmean100 : s / (scores.length : ℚ) ≤ 100 := by
      rw [div_le_iff₀ hlq]; linarith
    refine ⟨((⌊s / (scores.length : ℚ) + 1/2⌋ : ℤ) : ℚ), ?_, ?_, ?_⟩
    · simp [riskFromScores, hlen, hs, jdiv, jround, hnum, hne]
    · have : (0:ℤ) ≤ ⌊s / (scores.length : ℚ) + 1/2⌋ :=
        Int.le_floor.mpr (by push_cast; linarith)
      exact_mod_cast this
    · have hfl : ⌊s / (scores.length : ℚ) + 1/2⌋ ≤ ⌊(100:ℚ) + 1/2⌋ :=
        Int.floor_le_floor (by linarith)
      have h100 : ⌊(100:ℚ) + 1/2⌋ = 100 := by
        rw [Int.floor_eq_iff]
        constructor
        · push_cast; norm_num
        · push_cast; norm_num
      rw [h100] at hfl
      exact_mod_cast hfl
  · exact ⟨50, by simp [riskFromScores, hlen], by norm_num, by norm_num⟩

theorem calculateRiskScore_bounds (r : AdaptedFields)
    (hai : ∀ ad, r.aiDetection = some ad → ∃ q : ℚ, ad.score = some q ∧ 0 ≤ q ∧ q ≤ 100)
    (hm : ∀ m, r.metadata = some m → truthy m.anomalies = true →
      ∃ q : ℚ, coerceNum m.anomalies = some q ∧ 0 ≤ q) :
    ∃ q : ℚ, calculateRiskScore r = some q ∧ 0 ≤ q ∧ q ≤ 100 := by
  refine riskFromScores_bounds _ ?_
  intro x hx
  simp only [riskScoresOf, List.mem_append] at hx
  rcases hx with (hx | hx) | hx
  · rcases had : r.aiDetection with _ | ad
    · rw [had] at hx; simp at hx
    · rw [had] at hx; simp at hx
      exact hx ▸ hai ad had
  · rcases hc : r.c2paValidation with _ | c
    · rw [hc] at hx; simp at hx
    · rw [hc] at hx
      by_cases h1 : (!c.valid || c.tampering) = true
      · simp [h1] at hx
        exact ⟨80, hx, by norm_num, by norm_num⟩
      · by_cases h2 : (c.hasCredential && c.valid) = true
        · simp [h1, h2] at hx
          exact ⟨20, hx, by norm_num, by norm_num⟩
        · simp [h1, h2] at hx
  · rcases hmm : r.metadata with _ | m
    · rw [hmm] at hx; simp at hx
    · rw [hmm] at hx
      by_cases ht : truthy m.anomalies = true
      · simp [ht] at hx
        obtain ⟨q, hq, hq0⟩ := hm m hmm ht
        refine ⟨min 100 (q * 10), ?_, ?_, min_le_left _ _⟩
        · rw [hx, hq]; simp [jmul, jmin]
        · exact le_min (by norm_num) (by positivity)
      · simp [ht] at hx

theorem adaptDeepfakeResult_risk (data : Option JValue)
    (h : deepfakeInputsNumeric data = true) :
    ∃ q : ℚ, calculateRiskScore (adaptDeepfakeResult data) = some q ∧ 0 ≤ q ∧ q ≤ 100 := by
  unfold deepfakeInputsNumeric at h
  unfold adaptDeepfakeResult
  by_cases h1 : otruthy (optGet data "video_analysis") = true
  · rw [if_pos h1] at h ⊢
    by_cases h2 : otruthy (optGet (optGet data "video_analysis") "comprehensive_mode") = true
    · rw [if_pos h2]
      refine calculateRiskScore_bounds _ ?_ ?_
      · intro ad had
        simp only [Option.some.injEq] at had
        rw [← had]
        dsimp only
        refine normalizeScore_bounds _ ?_
        rfl
      · intro m hmm
        simp only [Option.some.injEq] at hmm
        rw [← hmm]
        dsimp only
        by_cases he : otruthy (walkPath (optGet data "video_analysis") ["facial_analysis", "error"]) = true
        · simp [he, coerceNum]
        · simp [he, coerceNum, truthy]
    · rw [if_neg h2] at h ⊢
      refine calculateRiskScore_bounds _ ?_ ?_
      · intro ad had
        simp only [Option.some.injEq] at had
        rw [← had]
        dsimp only
        exact normalizeScore_bounds _ h
      · intro m hmm
        simp at hmm
  · rw [if_neg h1] at h ⊢
    by_cases h3 : otruthy (optGet data "sightengine_analysis") = true
    · rw [if_pos h3] at h ⊢
      refine calculateRiskScore_bounds _ ?_ ?_
      · intro ad had
        simp only [Option.some.injEq] at had
        rw [← had]
        refine normalizeScore_bounds _ ?_
        rcases hv : jsOrD (optGet (optGet data "sightengine_analysis") "deepfake_score")
            (jsOrD (optGet (optGet data "sightengine_analysis") "ai_generated_score") (.num 0)) with
          _ | b | q0 | str0 | arr0 | obj0 <;>
          simp [numericOpt, coerceNum, hv] at h ⊢
      · intro m hmm
        simp at hmm
    · rw [if_neg h3] at h ⊢
      by_cases h4 : otruthy (optGet data "error") = true
      · rw [if_pos h4]
        refine calculateRiskScore_bounds _ ?_ ?_
        · intro ad had
          simp only [Option.some.injEq] at had
          rw [← had]
          exact ⟨0, rfl, le_refl 0, by norm_num⟩
        · intro m hmm
          simp only [Option.some.injEq] at hmm
          rw [← hmm]
          dsimp only
          intro ht
          exact ⟨1, rfl, by norm_num⟩
      · rw [if_neg h4] at h ⊢
        refine calculateRiskScore_bounds _ ?_ ?_
        · intro ad had
          simp only [Option.some.injEq] at had
          rw [← had]
          exact normalizeScore_bounds _ h
        · intro m hmm
          simp at hmm

theorem adaptAIGeneratedResult_risk (data : Option JValue)
    (h : numericOpt (extractField data aiGeneratedScoreFields) = true) :
    ∃ q : ℚ, calculateRiskScore (adaptAIGeneratedResult data) = some q ∧ 0 ≤ q ∧ q ≤ 100 := by
  unfold adaptAIGeneratedResult
  refine calculateRiskScore_bounds _ ?_ ?_
  · intro ad had
    simp only [Option.some.injEq] at had
    rw [← had]
    exact normalizeScore_bounds _ h
  · intro m hmm
    simp at hmm

theorem adaptTextResult_risk (data : Option JValue)
    (h : textInputsOk data = true) :
    ∃ q : ℚ, calculateRiskScore (adaptTextResult data) = some q ∧ 0 ≤ q ∧ q ≤ 100 := by
  unfold textInputsOk at h
  rw [Bool.and_eq_true] at h
  unfold adaptTextResult
  refine calculateRiskScore_bounds _ ?_ ?_
  · intro ad had
    simp only [Option.some.injEq] at had
    rw [← had]
    dsimp only
    exact normalizeScore_bounds _ h.1
  · intro m hmm
    simp at hmm

theorem adaptC2PAResult_risk (data : Option JValue)
    (h : c2paInputsOk data = true) :
    ∃ q : ℚ, calculateRiskScore (adaptC2PAResult data) = some q ∧ 0 ≤ q ∧ q ≤ 100 := by
  unfold c2paInputsOk at h
  unfold adaptC2PAResult
  by_cases h1 : otruthy (optGet data "validation_report") = true
  · rw [if_pos h1] at h ⊢
    refine calculateRiskScore_bounds _ ?_ ?_
    · intro ad had
      simp at had
    · intro m hmm
      simp only [Option.some.injEq] at hmm
      rw [← hmm]
      dsimp only
      intro ht
      rw [Bool.or_eq_true] at h
      rcases h with h | h
      · exfalso
        rw [ht] at h
        simp at h
      · rcases hcv : coerceNum (jsOrD (optLen (optGet (optGet data "validation_report")
            "validation_errors")) (.num 0)) with _ | q
        · rw [hcv] at h; simp at h
        · rw [hcv] at h
          simp only [decide_eq_true_eq] at h
          exact ⟨q, rfl, h⟩
  · rw [if_neg h1] at h ⊢
    by_cases h2 : otruthy (jsOr (optGet data "error")
        (some (.bool (match optGet data "status" with
                      | some (.str s) => s == "error"
                      | _ => false)))) = true
    · rw [if_pos h2]
      refine calculateRiskScore_bounds _ ?_ ?_
      · intro ad had
        simp at had
      · intro m hmm
        simp only [Option.some.injEq] at hmm
        rw [← hmm]
        dsimp only
        intro ht
        exact ⟨1, rfl, by norm_num⟩
    · rw [if_neg h2]
      refine calculateRiskScore_bounds _ ?_ ?_
      · intro ad had
        simp at had
      · intro m hmm
        simp at hmm

theorem emptyStrategy_risk (data : Option JValue) :
    ∃ q : ℚ, calculateRiskScore { rawData := data } = some q ∧ 0 ≤ q ∧ q ≤ 100 := by
  refine calculateRiskScore_bounds _ ?_ ?_
  · intro ad had
    simp at had
  · intro m hmm
    simp at hmm

/-- C8 (amended): for every tool name and every raw payload satisfying
the numeric payload discipline (`riskInputsNumeric`), the composite
`riskScore` of `adaptToolResult` is a number in the closed interval
`[0,100]`: each contributing score is a clamped normalization, the fixed
penalties 80 and 20, or `min(100, anomalies × 10)`, their arithmetic
mean stays in range, and when no component is present the result is the
default 50.  (The original unconditional claim is refuted by the
counterexample theorem below: a negative or non-numeric anomaly/score
value escapes the range.) -/
theorem claims_C8 (toolName : String) (data : Option JValue)
    (h : riskInputsNumeric toolName data = true) :
    ∃ q : ℚ, (adaptToolResult toolName data).riskScore = some q ∧ 0 ≤ q ∧ q ≤ 100 := by
  unfold riskInputsNumeric at h
  simp only [adaptToolResult]
  by_cases h1 : strIncludes (strLower toolName) "deepfake" = true
  · rw [if_pos h1] at h ⊢
    exact adaptDeepfakeResult_risk data h
  · rw [if_neg h1] at h ⊢
    by_cases h2 : (strIncludes (strLower toolName) "ai" || strIncludes (strLower toolName) "detect") = true
    · rw [if_pos h2] at h ⊢
      exact adaptAIGeneratedResult_risk data h
    · rw [if_neg h2] at h ⊢
      by_cases h3 : strIncludes (strLower toolName) "text" = true
      · rw [if_pos h3] at h ⊢
        exact adaptTextResult_risk data h
      · rw [if_neg h3] at h ⊢
        by_cases h4 : strIncludes (strLower toolName) "c2pa" = true
        · rw [if_pos h4] at h ⊢
          exact adaptC2PAResult_risk data h
        · rw [if_neg h4]
          exact emptyStrategy_risk data

/-- C8, counterexample to the original universal claim: for the tool
name `"c2pa"` and the (purely numeric) payload
`{validation_report: {is_valid: true, validation_errors: {length: -3}}}`
the code stores `anomalies = -3`, pushes `min(100, -30) = -30` as the
only score, and returns `riskScore = -30 ∉ [0,100]`. -/
theorem claims_C8_counterexample :
    (adaptToolResult "c2pa" (some (.obj [("validation_report",
      .obj [("is_valid", .bool true),
            ("validation_errors", .obj [("length", .num (-3))])])]))).riskScore
      = some (-30) ∧ ¬ (0 ≤ (-30 : ℚ)) := by
  constructor
  · have h1 : (adaptToolResult "c2pa" (some (.obj [("validation_report",
        .obj [("is_valid", .bool true),
              ("validation_errors", .obj [("length", .num (-3))])])]))).riskScore
        = jround (jdiv (some (0 + min 100 ((-3 : ℚ) * 10))) (some ((1 : ℕ) : ℚ))) := rfl
    rw [h1]
    norm_num [jround, jdiv, min_def]
  · norm_num

/-- Closed witness for `claims_C8`. -/
theorem claims_C8_witness :
    riskInputsNumeric "c2pa_verify" (some (.obj [("error", .str "no manifest")])) = true ∧
    ∃ q : ℚ, (adaptToolResult "c2pa_verify"
      (some (.obj [("error", .str "no manifest")]))).riskScore = some q ∧ 0 ≤ q ∧ q ≤ 100 :=
  ⟨rfl, claims_C8 "c2pa_verify" (some (.obj [("error", .str "no manifest")])) rfl⟩

/-- C9: `adapt("c2pa_verify", {error: "no manifest"})` selects the c2pa
strategy, whose error branch yields an invalid, credential-less
validation with one recorded anomaly, so the composite risk is the mean
of the 80 credential-failure penalty and `min(100, 1 × 10)`, i.e. 45. -/
theorem claims_C9 :
    (adaptToolResult "c2pa_verify" (some (.obj [("error", .str "no manifest")]))).c2paValidation
      = some { valid := false, hasCredential := false, tampering := false,
               trustStatus := some (.str "error") } ∧
    (adaptToolResult "c2pa_verify" (some (.obj [("error", .str "no manifest")]))).metadata
      = some { anomalies := .num 1, details := [("error", some (.str "no manifest"))] } ∧
    (adaptToolResult "c2pa_verify" (some (.obj [("error", .str "no manifest")]))).riskScore
      = some ((80 + min 100 (1 * 10)) / 2) ∧
    ((80 + min 100 ((1 : ℚ) * 10)) / 2 = 45) := by
  refine ⟨rfl, rfl, ?_, by norm_num⟩
  have h1 : (adaptToolResult "c2pa_verify"
      (some (.obj [("error", .str "no manifest")]))).riskScore
      = jround (jdiv (some (0 + 80 + min 100 ((1 : ℚ) * 10))) (some ((2 : ℕ) : ℚ))) := rfl
  rw [h1]
  norm_num [jround, jdiv, min_def]

/-!  ### Connection manager lemmas  -/

theorem send_preserves_flags (m : ClientMessage) (s : SockState) :
    (send m s).reconnectAttempts = s.reconnectAttempts ∧
    (send m s).connected = s.connected ∧
    (send m s).socketPresent = s.socketPresent ∧
    (send m s).socketOpen = s.socketOpen := by
  unfold send
  split <;> exact ⟨rfl, rfl, rfl, rfl⟩

theorem flushLoop_reconnectAttempts (fuel : Nat) : ∀ s : SockState,
    (flushLoop fuel s).reconnectAttempts = s.reconnectAttempts := by
  induction fuel with
  | zero => intro s; rfl
  | succ n ih =>
    intro s
    rcases hq : s.messageQueue with _ | ⟨m, rest⟩
    · simp [flushLoop, hq]
    · by_cases hc : s.connected = true
      · simp [flushLoop, hq, hc, ih, (send_preserves_flags m _).1]
      · simp [flushLoop, hq, hc]

theorem onclose_delay (s : SockState) (h : s.reconnectAttempts < 5) :
    (onclose s).2 = some (reconnectDelays.getD s.reconnectAttempts 0) ∧
    (onclose s).1.status = "disconnected" ∧
    (onclose s).1.reconnectAttempts = s.reconnectAttempts + 1 := by
  unfold onclose handleReconnect maxReconnectAttempts
  rw [if_neg (by simpa using Nat.not_le.mpr h)]
  exact ⟨rfl, rfl, rfl⟩

theorem onclose_exhausted (s : SockState) (h : 5 ≤ s.reconnectAttempts) :
    (onclose s).2 = none ∧ (onclose s).1.status = "error" ∧
    (onclose s).1.reconnectAttempts = s.reconnectAttempts := by
  unfold onclose handleReconnect maxReconnectAttempts
  rw [if_pos (by simpa using h)]
  exact ⟨rfl, rfl, rfl⟩

theorem failSeq_attempts (s : SockState) (h0 : s.reconnectAttempts = 0) :
    ∀ k, k ≤ 5 → (failSeq k s).reconnectAttempts = k := by
  have step : ∀ t : SockState, t.reconnectAttempts < 5 →
      (failStep t).reconnectAttempts = t.reconnectAttempts + 1 := by
    intro t ht
    exact (onclose_delay t ht).2.2
  intro k
  induction k with
  | zero => intro _; simpa [failSeq] using h0
  | succ n ih =>
    intro hn
    have hn5 : n ≤ 5 := Nat.le_of_succ_le hn
    have hrec : (failSeq n s).reconnectAttempts = n := ih hn5
    have : failSeq (n + 1) s = failStep (failSeq n s) := by
      unfold failSeq
      exact Function.iterate_succ_apply' failStep n s
    rw [this, step (failSeq n s) (by rw [hrec]; exact hn), hrec]

theorem failSeq_attempts_ge (s : SockState) (h0 : s.reconnectAttempts = 0) :
    ∀ k, 5 ≤ k → (failSeq k s).reconnectAttempts = 5 := by
  intro k
  induction k with
  | zero => intro h; omega
  | succ n ih =>
    intro hn
    rcases Nat.lt_or_ge n 5 with hlt | hge
    · have h5 : n + 1 = 5 := by omega
      rw [h5]
      exact failSeq_attempts s h0 5 (le_refl 5)
    · have hrec := ih hge
      have : failSeq (n + 1) s = failStep (failSeq n s) := by
        unfold failSeq
        exact Function.iterate_succ_apply' failStep n s
      rw [this]
      unfold failStep
      rw [(onclose_exhausted (failSeq n s) (by omega)).2.2, hrec]

/-- C3: starting from a reset attempt counter, the delay scheduled
before the `n`-th automatic reconnection attempt (1 ≤ n ≤ 5) is the
`n`-th entry of `[1000, 2000, 4000, 8000, 16000]` ms; when the 6th
close arrives after 5 failed attempts the state becomes `error` and no
further automatic attempt is ever scheduled; a successful open resets
the attempt counter to 0. -/
theorem claims_C3 (s : SockState) (h0 : s.reconnectAttempts = 0) :
    (∀ n, 1 ≤ n → n ≤ 5 →
      nthReconnectDelay n s = some (reconnectDelays.getD (n - 1) 0)) ∧
    ((onclose (failSeq 5 s)).1.status = "error" ∧ (onclose (failSeq 5 s)).2 = none) ∧
    (∀ k, 5 ≤ k → (onclose (failSeq k s)).2 = none) ∧
    (∀ t : SockState, (onopen t).reconnectAttempts = 0) := by
  refine ⟨?_, ?_, ?_, ?_⟩
  · intro n h1 h5
    have ha : (failSeq (n - 1) s).reconnectAttempts = n - 1 :=
      failSeq_attempts s h0 (n - 1) (by omega)
    have := (onclose_delay (failSeq (n - 1) s) (by omega)).1
    rw [ha] at this
    exact this
  · have ha : (failSeq 5 s).reconnectAttempts = 5 := failSeq_attempts s h0 5 (le_refl 5)
    have := onclose_exhausted (failSeq 5 s) (by omega)
    exact ⟨this.2.1, this.1⟩
  · intro k hk
    have ha : (failSeq k s).reconnectAttempts = 5 := failSeq_attempts_ge s h0 k hk
    exact (onclose_exhausted (failSeq k s) (by omega)).1
  · intro t
    unfold onopen flushMessageQueue
    rw [flushLoop_reconnectAttempts]

/-- Closed witness for `claims_C3`. -/
theorem claims_C3_witness :
    connectedSockState.reconnectAttempts = 0 ∧
    nthReconnectDelay 3 connectedSockState = some (reconnectDelays.getD 2 0) ∧
    (onclose (failSeq 5 connectedSockState)).1.status = "error" := by
  refine ⟨rfl, ?_, ?_⟩
  · exact (claims_C3 connectedSockState rfl).1 3 (by decide) (by decide)
  · exact (claims_C3 connectedSockState rfl).2.1.1

/-- C4, counterexample to the original claim: at a freshly connected
manager, after `disconnect()` the transport still delivers `close` to
the attached handler (no user-initiated flag exists), and that handler
schedules an automatic reconnection attempt 1000 ms later — so the
claim that no automatic reconnection is scheduled after a
user-initiated close is false. -/
theorem claims_C4_counterexample :
    (disconnect connectedSockState).2 = true ∧
    (disconnect connectedSockState).1.status = "disconnected" ∧
    (onclose (disconnect connectedSockState).1).2 = some 1000 := by
  exact ⟨rfl, rfl, rfl⟩

/-- C4 (amended): `disconnect()` closes the socket and publishes the
`disconnected` status, but the code has no user-initiated-close guard:
the close event still reaches the `onclose` handler, which — whenever
the retry budget is not exhausted — schedules an automatic `connect`
after the backoff delay for the current attempt counter, leaving the
status `disconnected` until that timer fires. -/
theorem claims_C4 (s : SockState) (hp : s.socketPresent = true)
    (hb : s.reconnectAttempts < 5) :
    (disconnect s).2 = true ∧
    (disconnect s).1.status = "disconnected" ∧
    (disconnect s).1.connected = false ∧
    (onclose (disconnect s).1).2 = some (reconnectDelays.getD s.reconnectAttempts 0) ∧
    (onclose (disconnect s).1).1.status = "disconnected" := by
  let s1 : SockState :=
    { s with socketPresent := false, socketOpen := false, connected := false,
             status := "disconnected" }
  have hd : disconnect s = (s1, true) := by
    unfold disconnect
    rw [if_pos hp]
  rw [hd]
  have h1 := onclose_delay s1 hb
  exact ⟨rfl, rfl, rfl, h1.1, h1.2.1⟩

/-- Closed witness for `claims_C4`. -/
theorem claims_C4_witness :
    connectedSockState.socketPresent = true ∧ connectedSockState.reconnectAttempts < 5 ∧
    ((disconnect connectedSockState).2 = true ∧
     (disconnect connectedSockState).1.status = "disconnected" ∧
     (disconnect connectedSockState).1.connected = false ∧
     (onclose (disconnect connectedSockState).1).2
       = some (reconnectDelays.getD connectedSockState.reconnectAttempts 0) ∧
     (onclose (disconnect connectedSockState).1).1.status = "disconnected") :=
  ⟨rfl, by decide, claims_C4 connectedSockState rfl (by decide)⟩

theorem sends_while_closed (ms : List ClientMessage) : ∀ s : SockState,
    (s.socketPresent && s.socketOpen) = false →
    ms.foldl (fun t m => send m t) s = { s with messageQueue := s.messageQueue ++ ms } := by
  induction ms with
  | nil =>
    intro s _
    rcases s with ⟨ra, mq, c, sp, so, st, sn⟩
    simp
  | cons m rest ih =>
    intro s h
    have h1 : send m s = { s with messageQueue := s.messageQueue ++ [m] } := by
      unfold send
      rw [if_neg]
      simp [h]
    have h2 : ({ s with messageQueue := s.messageQueue ++ [m] } : SockState).socketPresent
        = s.socketPresent := rfl
    calc (m :: rest).foldl (fun t m => send m t) s
        = rest.foldl (fun t m => send m t) (send m s) := rfl
      _ = rest.foldl (fun t m => send m t) { s with messageQueue := s.messageQueue ++ [m] } := by
          rw [h1]
      _ = { s with messageQueue := (s.messageQueue ++ [m]) ++ rest } := ih _ (by simpa using h)
      _ = { s with messageQueue := s.messageQueue ++ m :: rest } := by
          simp

theorem flushLoop_drains : ∀ (q : List ClientMessage) (s : SockState),
    s.messageQueue = q → s.connected = true → s.socketPresent = true → s.socketOpen = true →
    flushLoop q.length s = { s with messageQueue := [], sent := s.sent ++ q } := by
  intro q
  induction q with
  | nil =>
    intro s hq _ _ _
    rcases s with ⟨ra, mq, c, sp, so, st, sn⟩
    simp only at hq
    subst hq
    simp [flushLoop]
  | cons m rest ih =>
    intro s hq hc hp ho
    have hstep : flushLoop (m :: rest).length s
        = flushLoop rest.length (send m { s with messageQueue := rest }) := by
      simp [flushLoop, hq, hc]
    have hsend : send m { s with messageQueue := rest }
        = { s with messageQueue := rest, sent := s.sent ++ [m] } := by
      unfold send
      rw [if_pos]
      simp [hp, ho]
    rw [hstep, hsend, ih { s with messageQueue := rest, sent := s.sent ++ [m] } rfl hc hp ho]
    simp

/-- C5: messages sent while the transport is not open are appended to
the FIFO queue (none transmitted), and on the next open the whole queue
— earlier backlog first, then the new messages, in insertion order — is
transmitted exactly once, leaving the queue empty. -/
theorem claims_C5 (ms : List ClientMessage) (s : SockState)
    (h : (s.socketPresent && s.socketOpen) = false) :
    (ms.foldl (fun t m => send m t) s).sent = s.sent ∧
    (ms.foldl (fun t m => send m t) s).messageQueue = s.messageQueue ++ ms ∧
    (onopen (ms.foldl (fun t m => send m t) s)).sent = s.sent ++ s.messageQueue ++ ms ∧
    (onopen (ms.foldl (fun t m => send m t) s)).messageQueue = [] := by
  have hfold := sends_while_closed ms s h
  rw [hfold]
  have hopen : onopen ({ s with messageQueue := s.messageQueue ++ ms } : SockState)
      = { s with messageQueue := [], connected := true, reconnectAttempts := 0,
                 status := "connected", socketPresent := true, socketOpen := true,
                 sent := s.sent ++ (s.messageQueue ++ ms) } := by
    unfold onopen flushMessageQueue
    rw [flushLoop_drains (s.messageQueue ++ ms) _ rfl rfl rfl rfl]
  rw [hopen]
  exact ⟨rfl, rfl, by simp, rfl⟩

/-- Closed witness for `claims_C5`. -/
theorem claims_C5_witness :
    ((connectedSockState.socketPresent && false) = false) ∧
    (([({ type := "chat" } : ClientMessage), { type := "ping" }].foldl
        (fun t m => send m t)
        { connectedSockState with socketOpen := false }).messageQueue
      = [] ++ [({ type := "chat" } : ClientMessage), { type := "ping" }]) ∧
    ((onopen ([({ type := "chat" } : ClientMessage), { type := "ping" }].foldl
        (fun t m => send m t)
        { connectedSockState with socketOpen := false })).sent
      = [] ++ [] ++ [({ type := "chat" } : ClientMessage), { type := "ping" }]) :=
  ⟨rfl,
   (claims_C5 [{ type := "chat" }, { type := "ping" }]
     { connectedSockState with socketOpen := false } rfl).2.1,
   (claims_C5 [{ type := "chat" }, { type := "ping" }]
     { connectedSockState with socketOpen := false } rfl).2.2.1⟩

/-- C6: a 2.5 MiB file is split into exactly 3 chunks
(`ceil(2621440 / 2^20) = 3`), whose envelopes all carry
`total_chunks = 3` and `chunk_index` 0, 1, 2 in strictly increasing
order; the pending upload resolves with the backend file id exactly on
an `upload_complete` carrying the generated `uploadId`, and any event
with a different `upload_id` leaves it pending. -/
theorem claims_C6 (name ftype uploadId : String) (chunkData : Nat → String) :
    totalChunksFor 2621440 = 3 ∧
    (sendFileEnvelopes name 2621440 ftype chunkData uploadId).length = 3 ∧
    (sendFileEnvelopes name 2621440 ftype chunkData uploadId).map (fun e => e.chunk_index)
      = [some 0, some 1, some 2] ∧
    (∀ e ∈ sendFileEnvelopes name 2621440 ftype chunkData uploadId,
      e.type = "file_chunk" ∧ e.total_chunks = some 3) ∧
    (∀ fid, handleUploadResult uploadId .pending
        { type := "upload_complete", upload_id := some uploadId, file_id := fid }
      = .resolved fid) ∧
    (∀ ev : ServerMsg, ev.upload_id ≠ some uploadId →
      handleUploadResult uploadId .pending ev = .pending) := by
  have h3 : totalChunksFor 2621440 = 3 := rfl
  refine ⟨h3, ?_, ?_, ?_, ?_, ?_⟩
  · simp [sendFileEnvelopes, h3]
  · simp [sendFileEnvelopes, h3, List.range_succ]
  · intro e he
    simp [sendFileEnvelopes, h3, List.range_succ] at he
    rcases he with he | he | he <;> subst he <;> exact ⟨rfl, rfl⟩
  · intro fid
    simp [handleUploadResult]
  · intro ev hne
    have hfalse : (ev.upload_id == some uploadId) = false := by
      rw [beq_eq_false_iff_ne]
      exact hne
    simp [handleUploadResult, hfalse]

/-- Closed witness for `claims_C6`. -/
theorem claims_C6_witness :
    totalChunksFor 2621440 = 3 ∧
    (sendFileEnvelopes "f.bin" 2621440 "video/mp4" (fun _ => "") "upload_1").map
      (fun e => e.chunk_index) = [some 0, some 1, some 2] ∧
    handleUploadResult "upload_1" .pending
      { type := "upload_complete", upload_id := some "upload_1", file_id := some "f42" }
      = .resolved (some "f42") ∧
    handleUploadResult "upload_1" .pending
      { type := "upload_complete", upload_id := some "upload_2", file_id := some "f42" }
      = .pending :=
  ⟨(claims_C6 "f.bin" "video/mp4" "upload_1" (fun _ => "")).1,
   (claims_C6 "f.bin" "video/mp4" "upload_1" (fun _ => "")).2.2.1,
   (claims_C6 "f.bin" "video/mp4" "upload_1" (fun _ => "")).2.2.2.2.1 (some "f42"),
   (claims_C6 "f.bin" "video/mp4" "upload_1" (fun _ => "")).2.2.2.2.2
     { type := "upload_complete", upload_id := some "upload_2", file_id := some "f42" }
     (by decide)⟩

/-!  ### Protocol state machine lemmas  -/

theorem chat_start_step (gen1 gen2 now : String) (s : FullState) :
    handleServerMessage gen1 gen2 now { type := "chat_start" } s
      = ⟨addMessage (mkMsg gen1 "agent-thinking" "考え中..." now) s.app, some gen1⟩ := rfl

theorem chat_complete_step (gen1 gen2 now : String) (s : FullState) :
    handleServerMessage gen1 gen2 now { type := "chat_complete" } s
      = ⟨{ s.app with messages := completePendingTools s.app.messages }, none⟩ := rfl

theorem chat_content_no_stream (gen1 gen2 now frag : String) (app : AppState) :
    handleServerMessage gen1 gen2 now { type := "chat_content", content := some frag }
      ⟨app, none⟩ = ⟨app, none⟩ := rfl

theorem chat_content_found (gen1 gen2 now frag cid : String) (app : AppState) (target : Message)
    (h2 : cid ≠ "") (h3 : app.messages.find? (fun m => m.id == cid) = some target) :
    handleServerMessage gen1 gen2 now { type := "chat_content", content := some frag }
      ⟨app, some cid⟩
      = ⟨updateMessage cid (streamUpdated target frag) app, some cid⟩ := by
  have hb : (cid != "") = true := bne_iff_ne.mpr h2
  have c1 : (("chat_content" : String) == "connection") = false := rfl
  have c2 : (("chat_content" : String) == "chat_start") = false := rfl
  have c3 : (("chat_content" : String) == "chat_content") = true := rfl
  simp only [handleServerMessage, c1, c2, c3, hb, h3, reduceIte]
  rfl

theorem chat_content_not_found (gen1 gen2 now frag cid : String) (app : AppState)
    (h2 : cid ≠ "") (h3 : app.messages.find? (fun m => m.id == cid) = none) :
    handleServerMessage gen1 gen2 now { type := "chat_content", content := some frag }
      ⟨app, some cid⟩
      = ⟨addMessage (mkMsg cid "agent-reply" frag now) app, some cid⟩ := by
  have hb : (cid != "") = true := bne_iff_ne.mpr h2
  have c1 : (("chat_content" : String) == "connection") = false := rfl
  have c2 : (("chat_content" : String) == "chat_start") = false := rfl
  have c3 : (("chat_content" : String) == "chat_content") = true := rfl
  simp only [handleServerMessage, c1, c2, c3, hb, h3, reduceIte]
  rfl

/-- C10: an inbound message whose discriminator is none of the fourteen
recognized protocol types falls through to the logging-only default
case: the (total) handler terminates normally and the whole manager
state — messages, analysis results, file-id mappings, connection status
and the current streaming id — is unchanged. -/
theorem claims_C10 (gen1 gen2 now : String) (data : ServerMsg) (s : FullState)
    (h : data.type ∉ recognizedTypes) :
    handleServerMessage gen1 gen2 now data s = s := by
  simp only [recognizedTypes, List.mem_cons, List.not_mem_nil, or_false, not_or] at h
  obtain ⟨h1, h2, h3, h4, h5, h6, h7, h8, h9, h10, h11, h12, h13, h14⟩ := h
  unfold handleServerMessage
  simp [h1, h2, h3, h4, h5, h6, h7, h8, h9, h10, h11, h12, h13, h14]

/-- Closed witness for `claims_C10`. -/
theorem claims_C10_witness :
    handleServerMessage "g1" "g2" "t0" { type := "totally_unknown" } initialFullState
      = initialFullState :=
  claims_C10 "g1" "g2" "t0" { type := "totally_unknown" } initialFullState (by decide)

/-- C7, counterexample to the original claim: when no current-streaming
id exists at all (for instance right after `chat_complete` or at the
initial state), a `chat_content` fragment is dropped: the handler
returns the state unchanged and creates no message, contradicting "a
new agent-reply message is created (the fragment is never dropped)". -/
theorem claims_C7_counterexample :
    handleServerMessage "g1" "g2" "t0" { type := "chat_content", content := some "X" }
      initialFullState = initialFullState ∧
    (handleServerMessage "g1" "g2" "t0" { type := "chat_content", content := some "X" }
      initialFullState).app.messages = [] :=
  ⟨rfl, rfl⟩

/-- C7 (amended): a `chat_content` fragment creates a new `agent-reply`
message whose full content is the fragment only when a (nonempty)
current-streaming id is set but no message with that id exists in the
store — the after-tool-call case; when no current-streaming id is set
at all, the handler drops the fragment and leaves the state
unchanged. -/
theorem claims_C7 (gen1 gen2 now frag cid : String) (app : AppState) :
    (cid ≠ "" →
      app.messages.find? (fun m => m.id == cid) = none →
      handleServerMessage gen1 gen2 now { type := "chat_content", content := some frag }
        ⟨app, some cid⟩
        = ⟨addMessage (mkMsg cid "agent-reply" frag now) app, some cid⟩) ∧
    (handleServerMessage gen1 gen2 now { type := "chat_content", content := some frag }
      ⟨app, none⟩ = ⟨app, none⟩) :=
  ⟨fun h2 h3 => chat_content_not_found gen1 gen2 now frag cid app h2 h3,
   chat_content_no_stream gen1 gen2 now frag app⟩

/-- Closed witness for `claims_C7`. -/
theorem claims_C7_witness :
    ("m1" : String) ≠ "" ∧
    (initialAppState.messages.find? (fun m => m.id == "m1") = none) ∧
    handleServerMessage "g1" "g2" "t0" { type := "chat_content", content := some "X" }
      ⟨initialAppState, some "m1"⟩
      = ⟨addMessage (mkMsg "m1" "agent-reply" "X" "t0") initialAppState, some "m1"⟩ :=
  ⟨by decide, rfl,
   (claims_C7 "g1" "g2" "t0" "X" "m1" initialAppState).1 (by decide) rfl⟩

/-!  ### List lemmas for the streaming-reply claims  -/

theorem find?_append_of_none {α : Type} (p : α → Bool) (l1 l2 : List α)
    (h : l1.find? p = none) : (l1 ++ l2).find? p = l2.find? p := by
  induction l1 with
  | nil => rfl
  | cons x xs ih =>
    cases hp : p x with
    | false =>
      simp only [List.find?, hp] at h
      simp only [List.cons_append, List.find?, hp]
      exact ih h
    | true =>
      simp only [List.find?, hp] at h
      cases h

theorem find?_id_eq_none (a : String) (l : List Message)
    (h : a ∉ l.map (fun m => m.id)) : l.find? (fun m => m.id == a) = none := by
  rw [List.find?_eq_none]
  intro m hm
  simp only [beq_iff_eq]
  intro hc
  exact h (hc ▸ List.mem_map_of_mem (fun m => m.id) hm)

theorem updateMessageList_append (i : String) (u : Message) (l1 l2 : List Message) :
    updateMessageList i u (l1 ++ l2) = updateMessageList i u l1 ++ updateMessageList i u l2 :=
  List.map_append _ _ _

theorem updateMessageList_of_not_mem (i : String) (u : Message) (l : List Message)
    (h : ∀ m ∈ l, m.id ≠ i) : updateMessageList i u l = l := by
  induction l with
  | nil => rfl
  | cons x xs ih =>
    have hx : (x.id == i) = false := beq_eq_false_iff_ne.mpr (h x (List.mem_cons_self _ _))
    simp only [updateMessageList, List.map_cons, hx, Bool.false_eq_true, if_false]
    rw [List.cons.injEq]
    exact ⟨rfl, ih (fun m hm => h m (List.mem_cons_of_mem _ hm))⟩

theorem updateMessageList_ids (i : String) (u : Message) (hu : u.id = i) (l : List Message) :
    (updateMessageList i u l).map (fun m => m.id) = l.map (fun m => m.id) := by
  induction l with
  | nil => rfl
  | cons x xs ih =>
    simp only [updateMessageList, List.map_cons] at ih ⊢
    cases hx : (x.id == i) with
    | false => simp only [hx, Bool.false_eq_true, if_false, List.map_cons, ih]
    | true =>
      have : x.id = i := beq_iff_eq.mp hx
      simp only [hx, if_true, List.map_cons, ih, hu, this]

theorem completeFold_append (ts : List Message) : ∀ l1 l2 : List Message,
    ts.foldl (fun acc tm => updateMessageList tm.id { tm with status := some "success" } acc)
        (l1 ++ l2)
      = ts.foldl (fun acc tm => updateMessageList tm.id { tm with status := some "success" } acc) l1
        ++ ts.foldl (fun acc tm => updateMessageList tm.id { tm with status := some "success" } acc) l2 := by
  induction ts with
  | nil => intro l1 l2; rfl
  | cons t ts ih =>
    intro l1 l2
    simp only [List.foldl_cons]
    rw [updateMessageList_append]
    exact ih _ _

theorem completeFold_ids (ts : List Message) : ∀ l : List Message,
    (ts.foldl (fun acc tm => updateMessageList tm.id { tm with status := some "success" } acc)
        l).map (fun m => m.id)
      = l.map (fun m => m.id) := by
  induction ts with
  | nil => intro l; rfl
  | cons t ts ih =>
    intro l
    simp only [List.foldl_cons]
    rw [ih, updateMessageList_ids t.id { t with status := some "success" } rfl]

theorem completeFold_singleton (ts : List Message) (m0 : Message)
    (h : ∀ tm ∈ ts, tm.id ≠ m0.id) :
    ts.foldl (fun acc tm => updateMessageList tm.id { tm with status := some "success" } acc)
      [m0] = [m0] := by
  induction ts with
  | nil => rfl
  | cons t ts ih =>
    simp only [List.foldl_cons]
    have h0 : updateMessageList t.id { t with status := some "success" } [m0] = [m0] := by
      apply updateMessageList_of_not_mem
      intro m hm
      rw [List.mem_singleton] at hm
      subst hm
      exact Ne.symm (h t (List.mem_cons_self _ _))
    rw [h0]
    exact ih (fun tm htm => h tm (List.mem_cons_of_mem _ htm))

theorem completePendingTools_append_single (M : List Message) (m0 : Message)
    (hp : (m0.type == "tool-call"
      && (m0.status == some "executing" || m0.status == some "pending")) = false)
    (hid : ∀ tm ∈ M, tm.id ≠ m0.id) :
    completePendingTools (M ++ [m0]) = completePendingTools M ++ [m0] := by
  unfold completePendingTools
  rw [List.filter_append]
  have h1 : List.filter (fun m => m.type == "tool-call"
      && (m.status == some "executing" || m.status == some "pending")) [m0] = [] := by
    simp only [List.filter, hp]
  rw [h1, List.append_nil, completeFold_append]
  congr 1
  apply completeFold_singleton
  intro tm htm
  exact hid tm (List.mem_of_mem_filter htm)

theorem completePendingTools_ids (M : List Message) :
    (completePendingTools M).map (fun m => m.id) = M.map (fun m => m.id) := by
  unfold completePendingTools
  exact completeFold_ids _ _

theorem filter_id_eq_nil (a : String) (L : List Message)
    (h : a ∉ L.map (fun m => m.id)) : L.filter (fun m => m.id == a) = [] := by
  rw [List.filter_eq_nil_iff]
  intro m hm
  simp only [beq_iff_eq]
  intro hc
  exact h (hc ▸ List.mem_map_of_mem (fun m => m.id) hm)

/-- C1: running `chat_start`, `chat_content "A"`, `chat_content "B"`,
`chat_complete` from any state — with the minted id fresh and nonempty,
as the generator guarantees — produces exactly one new message: its id
is the minted one, its kind is `agent-reply`, its content is `"AB"`
(first fragment replaces the thinking placeholder, the second is
appended), and `chat_complete` clears the current-streaming id. -/
theorem claims_C1 (s : FullState) (a gA gB gC gD nw1 nw2 nw3 nw4 : String)
    (hne : a ≠ "") (hfresh : a ∉ s.app.messages.map (fun m => m.id)) :
    (handleServerMessage gD gD nw4 { type := "chat_complete" }
      (handleServerMessage gC gC nw3 { type := "chat_content", content := some "B" }
        (handleServerMessage gB gB nw2 { type := "chat_content", content := some "A" }
          (handleServerMessage a gA nw1 { type := "chat_start" } s)))).app.messages.map
        (fun m => m.id)
      = s.app.messages.map (fun m => m.id) ++ [a] ∧
    (handleServerMessage gD gD nw4 { type := "chat_complete" }
      (handleServerMessage gC gC nw3 { type := "chat_content", content := some "B" }
        (handleServerMessage gB gB nw2 { type := "chat_content", content := some "A" }
          (handleServerMessage a gA nw1 { type := "chat_start" } s)))).app.messages.filter
        (fun m => m.id == a)
      = [mkMsg a "agent-reply" "AB" nw1] ∧
    (handleServerMessage gD gD nw4 { type := "chat_complete" }
      (handleServerMessage gC gC nw3 { type := "chat_content", content := some "B" }
        (handleServerMessage gB gB nw2 { type := "chat_content", content := some "A" }
          (handleServerMessage a gA nw1 { type := "chat_start" } s)))).currentStreamingMessageId
      = none := by
  have hfreshNe : ∀ m ∈ s.app.messages, m.id ≠ a := by
    intro m hm hc
    exact hfresh (hc ▸ List.mem_map_of_mem (fun m => m.id) hm)
  have hfind0 : s.app.messages.find? (fun m => m.id == a) = none := find?_id_eq_none a _ hfresh
  have hupdL1 : updateMessageList a (streamUpdated (mkMsg a "agent-thinking" "考え中..." nw1) "A")
      (s.app.messages ++ [mkMsg a "agent-thinking" "考え中..." nw1])
      = s.app.messages ++ [mkMsg a "agent-reply" "A" nw1] := by
    rw [updateMessageList_append, updateMessageList_of_not_mem _ _ _ hfreshNe]
    have hsingle : updateMessageList a
        (streamUpdated (mkMsg a "agent-thinking" "考え中..." nw1) "A")
        [mkMsg a "agent-thinking" "考え中..." nw1] = [mkMsg a "agent-reply" "A" nw1] := by
      simp [updateMessageList, streamUpdated, mkMsg]
    rw [hsingle]
  have hupdL2 : updateMessageList a (streamUpdated (mkMsg a "agent-reply" "A" nw1) "B")
      (s.app.messages ++ [mkMsg a "agent-reply" "A" nw1])
      = s.app.messages ++ [mkMsg a "agent-reply" "AB" nw1] := by
    rw [updateMessageList_append, updateMessageList_of_not_mem _ _ _ hfreshNe]
    have hsingle : updateMessageList a (streamUpdated (mkMsg a "agent-reply" "A" nw1) "B")
        [mkMsg a "agent-reply" "A" nw1] = [mkMsg a "agent-reply" "AB" nw1] := by
      simp [updateMessageList, streamUpdated, mkMsg]
    rw [hsingle]
  rw [chat_start_step]
  have hfind1 : (addMessage (mkMsg a "agent-thinking" "考え中..." nw1) s.app).messages.find?
      (fun m => m.id == a) = some (mkMsg a "agent-thinking" "考え中..." nw1) := by
    show (s.app.messages ++ [mkMsg a "agent-thinking" "考え中..." nw1]).find?
      (fun m => m.id == a) = _
    rw [find?_append_of_none _ _ _ hfind0]
    simp [List.find?, mkMsg]
  rw [chat_content_found gB gB nw2 "A" a _ _ hne hfind1]
  have hfind2 : (updateMessage a (streamUpdated (mkMsg a "agent-thinking" "考え中..." nw1) "A")
      (addMessage (mkMsg a "agent-thinking" "考え中..." nw1) s.app)).messages.find?
      (fun m => m.id == a) = some (mkMsg a "agent-reply" "A" nw1) := by
    show (updateMessageList a (streamUpdated (mkMsg a "agent-thinking" "考え中..." nw1) "A")
      (s.app.messages ++ [mkMsg a "agent-thinking" "考え中..." nw1])).find? (fun m => m.id == a) = _
    rw [hupdL1, find?_append_of_none _ _ _ hfind0]
    simp [List.find?, mkMsg]
  rw [chat_content_found gC gC nw3 "B" a _ _ hne hfind2]
  rw [chat_complete_step]
  have hmsgs3 : (updateMessage a (streamUpdated (mkMsg a "agent-reply" "A" nw1) "B")
      (updateMessage a (streamUpdated (mkMsg a "agent-thinking" "考え中..." nw1) "A")
        (addMessage (mkMsg a "agent-thinking" "考え中..." nw1) s.app))).messages
      = s.app.messages ++ [mkMsg a "agent-reply" "AB" nw1] := by
    show updateMessageList a (streamUpdated (mkMsg a "agent-reply" "A" nw1) "B")
      (updateMessageList a (streamUpdated (mkMsg a "agent-thinking" "考え中..." nw1) "A")
        (s.app.messages ++ [mkMsg a "agent-thinking" "考え中..." nw1])) = _
    rw [hupdL1, hupdL2]
  have hcpt : completePendingTools (s.app.messages ++ [mkMsg a "agent-reply" "AB" nw1])
      = completePendingTools s.app.messages ++ [mkMsg a "agent-reply" "AB" nw1] := by
    apply completePendingTools_append_single
    · rfl
    · intro tm htm
      exact hfreshNe tm htm
  have hids : a ∉ (completePendingTools s.app.messages).map (fun m => m.id) := by
    rw [completePendingTools_ids]
    exact hfresh
  refine ⟨?_, ?_, rfl⟩
  · dsimp only
    rw [hmsgs3, hcpt, List.map_append, completePendingTools_ids]
    rfl
  · dsimp only
    rw [hmsgs3, hcpt, List.filter_append, filter_id_eq_nil a _ hids]
    simp [List.filter, mkMsg]

/-- Closed witness for `claims_C1`. -/
theorem claims_C1_witness :
    ("m1" : String) ≠ "" ∧
    (handleServerMessage "g4" "g4" "t4" { type := "chat_complete" }
      (handleServerMessage "g3" "g3" "t3" { type := "chat_content", content := some "B" }
        (handleServerMessage "g2" "g2" "t2" { type := "chat_content", content := some "A" }
          (handleServerMessage "m1" "gA" "t1" { type := "chat_start" }
            initialFullState)))).app.messages.filter (fun m => m.id == "m1")
      = [mkMsg "m1" "agent-reply" "AB" "t1"] :=
  ⟨by decide,
   (claims_C1 initialFullState "m1" "gA" "g2" "g3" "g4" "t1" "t2" "t3" "t4"
     (by decide) (by simp [initialFullState, initialAppState])).2.1⟩

/-!  ### Analysis-results-by-file lemmas (C2)  -/

theorem mapSet_mem {α : Type} (m : List (String × α)) (k : String) (v : α)
    (e : String × α) (he : e ∈ mapSet m k v) : e = (k, v) ∨ e ∈ m := by
  unfold mapSet at he
  by_cases hc : m.any (fun p => p.1 == k) = true
  · rw [if_pos hc] at he
    rcases List.mem_map.mp he with ⟨p, hp, hpe⟩
    by_cases hk : (p.1 == k) = true
    · left
      rw [← hpe]
      simp [hk]
    · right
      rw [← hpe]
      simp only [hk, Bool.false_eq_true, if_false]
      exact hp
  · rw [if_neg hc] at he
    rcases List.mem_append.mp he with h | h
    · right; exact h
    · left; exact List.mem_singleton.mp h

theorem mapGet_mem {α : Type} (m : List (String × α)) (k : String) (l : α)
    (h : mapGet m k = some l) : ∃ p ∈ m, p.2 = l := by
  unfold mapGet at h
  rcases hf : m.find? (fun p => p.1 == k) with _ | p
  · rw [hf] at h; cases h
  · rw [hf] at h
    exact ⟨p, List.mem_of_find?_eq_some hf, Option.some.inj h⟩

theorem mapGet_mapSet_self {α : Type} (m : List (String × α)) (k : String) (v : α) :
    mapGet (mapSet m k v) k = some v := by
  unfold mapSet
  by_cases hc : m.any (fun p => p.1 == k) = true
  · rw [if_pos hc]
    unfold mapGet
    induction m with
    | nil => simp at hc
    | cons p ps ih =>
      cases hp : (p.1 == k) with
      | true =>
        simp only [List.map_cons, hp, if_true]
        simp [List.find?]
      | false =>
        rw [List.any_cons, hp, Bool.false_or] at hc
        simp only [List.map_cons, hp, Bool.false_eq_true, if_false]
        simp only [List.find?, hp]
        exact ih hc
  · rw [if_neg hc]
    unfold mapGet
    have hnone : m.find? (fun p => p.1 == k) = none := by
      rw [List.find?_eq_none]
      intro p hp hpk
      exact hc (List.any_eq_true.mpr ⟨p, hp, hpk⟩)
    rw [find?_append_of_none _ _ _ hnone]
    simp [List.find?]

theorem setCurrentAnalysis_inv (a? : Option AnalysisResult) (st : AppState)
    (hinv : ResultsInv st) : ResultsInv (setCurrentAnalysis a? st) := by
  rcases a? with _ | a
  · exact hinv
  · intro e he
    have he2 := mapSet_mem st.analysisResultsByFile (fileKeyOf a)
      (((mapGet st.analysisResultsByFile (fileKeyOf a)).getD []).filter
        (fun r => r.type != a.type) ++ [a]) e he
    rcases he2 with he2 | he2
    · rw [he2]
      dsimp only
      rw [List.map_append]
      have hnd : ((((mapGet st.analysisResultsByFile (fileKeyOf a)).getD []).filter
          (fun r => r.type != a.type)).map (fun r => r.type)).Nodup := by
        rcases hg : mapGet st.analysisResultsByFile (fileKeyOf a) with _ | l
        · simp
        · rcases mapGet_mem _ _ _ hg with ⟨p, hp, hpl⟩
          have hpnd := hinv p hp
          rw [hpl] at hpnd
          simp only [Option.getD_some]
          exact List.Nodup.sublist ((List.filter_sublist _).map _) hpnd
      have hnm : a.type ∉ ((((mapGet st.analysisResultsByFile (fileKeyOf a)).getD []).filter
          (fun r => r.type != a.type)).map (fun r => r.type)) := by
        intro hmem
        rcases List.mem_map.mp hmem with ⟨r, hr, hrt⟩
        have hrp : (r.type != a.type) = true := (List.mem_filter.mp hr).2
        rw [bne_iff_ne] at hrp
        exact hrp hrt
      exact List.Nodup.append hnd (List.nodup_singleton _)
        (List.disjoint_singleton.mpr hnm)
    · exact hinv e he2

theorem toolResultBranch_effect (gen1 now : String) (d : ServerMsg) (s : FullState) :
    (toolResultBranch gen1 now d s).app.analysisResultsByFile
      = mapSet s.app.analysisResultsByFile (toolResultKey d s.app.fileIdMap)
          ((((mapGet s.app.analysisResultsByFile
              (toolResultKey d s.app.fileIdMap)).getD []).filter
            (fun r => r.type != d.tool_name))
            ++ [mkToolResultAnalysis gen1 now d s.app.fileIdMap]) ∧
    (toolResultBranch gen1 now d s).app.fileIdMap = s.app.fileIdMap := by
  constructor
  · simp only [toolResultBranch]
    split <;> split <;> split <;> rfl
  · simp only [toolResultBranch]
    split <;> split <;> split <;> rfl

theorem tool_result_step (gen1 gen2 now : String) (d : ServerMsg) (s : FullState)
    (hd : d.type = "tool_result") :
    handleServerMessage gen1 gen2 now d s = toolResultBranch gen1 now d s := by
  obtain ⟨dt, dc, dtn, dp, doa, dr, dri, dst, dm, dui, dfi, dfin⟩ := d
  replace hd : dt = "tool_result" := hd
  subst hd
  rfl

theorem mkToolResultAnalysis_type (g now : String) (d : ServerMsg)
    (fm : List (String × String)) : (mkToolResultAnalysis g now d fm).type = d.tool_name := rfl

theorem filter_two_updates (X : List AnalysisResult) (a1 a2 : AnalysisResult)
    (t : Option String) (h1 : a1.type = t) (h2 : a2.type = t) :
    List.filter (fun r => r.type == t)
      (List.filter (fun r => r.type != t)
        (List.filter (fun r => r.type != t) X ++ [a1]) ++ [a2]) = [a2] := by
  have hfa1 : List.filter (fun r => r.type != t) [a1] = [] := by
    simp [List.filter, h1]
  have hfa2 : List.filter (fun r => r.type == t) [a2] = [a2] := by
    simp [List.filter, h2]
  have hidem : List.filter (fun r => r.type != t) (List.filter (fun r => r.type != t) X)
      = List.filter (fun r => r.type != t) X := by
    rw [List.filter_eq_self]
    intro r hr
    exact (List.mem_filter.mp hr).2
  have hnone : List.filter (fun r => r.type == t) (List.filter (fun r => r.type != t) X)
      = [] := by
    rw [List.filter_eq_nil_iff]
    intro r hr
    have hrp : (r.type != t) = true := (List.mem_filter.mp hr).2
    rw [bne_iff_ne] at hrp
    simp only [beq_iff_eq]
    exact hrp
  rw [List.filter_append, List.filter_append, hfa1, List.append_nil, hidem, hnone,
      List.nil_append, hfa2]

/-- C2: (a) every store state reachable through the public mutators
satisfies the invariant that no file key holds two analysis results
with the same tool type; (b) after two `tool_result` events carrying
the same tool name and resolving to the same file key, the list under
that key holds exactly one entry for that tool, and it is the analysis
built from the second event (in particular it holds the second
payload). -/
theorem claims_C2 :
    (∀ st : AppState, Reachable st → ResultsInv st) ∧
    (∀ (s : FullState) (g1 g2 n1 g3 g4 n2 : String) (d1 d2 : ServerMsg) (t : Option String)
       (k : String),
      d1.type = "tool_result" → d2.type = "tool_result" →
      d1.tool_name = t → d2.tool_name = t →
      toolResultKey d1 s.app.fileIdMap = k →
      toolResultKey d2 (handleServerMessage g1 g2 n1 d1 s).app.fileIdMap = k →
      ((mapGet (handleServerMessage g3 g4 n2 d2
          (handleServerMessage g1 g2 n1 d1 s)).app.analysisResultsByFile k).getD []).filter
          (fun r => r.type == t)
        = [mkToolResultAnalysis g3 n2 d2 s.app.fileIdMap] ∧
      (mkToolResultAnalysis g3 n2 d2 s.app.fileIdMap).content = d2.result) := by
  constructor
  · intro st h
    induction h with
    | init => intro e he; cases he
    | addMessage m _ ih => exact ih
    | updateMessage i m _ ih => exact ih
    | clearMessages _ ih => exact ih
    | setCurrentAnalysis a _ ih => exact setCurrentAnalysis_inv a _ ih
    | addAnalysisHistory a _ ih => exact ih
    | setCurrentFileKey k _ ih => exact ih
    | setCurrentToolType t _ ih => exact ih
    | setConnectionStatus c _ ih => exact ih
    | addFileMapping n i _ ih => exact ih
    | resetAll _ ih => intro e he; cases he
  · intro s g1 g2 n1 g3 g4 n2 d1 d2 t k h1 h2 ht1 ht2 hk1 hk2
    rw [tool_result_step g1 g2 n1 d1 s h1] at hk2 ⊢
    rw [tool_result_step g3 g4 n2 d2 _ h2]
    have E1 := toolResultBranch_effect g1 n1 d1 s
    have E2 := toolResultBranch_effect g3 n2 d2 (toolResultBranch g1 n1 d1 s)
    rw [E1.2] at hk2
    rw [hk1] at E1
    rw [E1.2, hk2, E1.1] at E2
    rw [ht1, ht2] at E2
    have ha1 : (mkToolResultAnalysis g1 n1 d1 s.app.fileIdMap).type = t := by
      rw [mkToolResultAnalysis_type, ht1]
    have ha2 : (mkToolResultAnalysis g3 n2 d2 s.app.fileIdMap).type = t := by
      rw [mkToolResultAnalysis_type, ht2]
    refine ⟨?_, rfl⟩
    rw [E2.1, mapGet_mapSet_self, Option.getD_some, mapGet_mapSet_self, Option.getD_some]
    exact filter_two_updates _ _ _ t ha1 ha2

/-- Closed witness for `claims_C2`. -/
theorem claims_C2_witness :
    ResultsInv initialAppState ∧
    (((mapGet (handleServerMessage "g3" "g4" "t2" c2Event2
        (handleServerMessage "g1" "g2" "t1" c2Event1
          initialFullState)).app.analysisResultsByFile "b.png").getD []).filter
        (fun r => r.type == some "c2pa_verify")
      = [mkToolResultAnalysis "g3" "t2" c2Event2 initialAppState.fileIdMap]) :=
  ⟨claims_C2.1 initialAppState Reachable.init,
   (claims_C2.2 initialFullState "g1" "g2" "t1" "g3" "g4" "t2" c2Event1 c2Event2
      (some "c2pa_verify") "b.png" rfl rfl rfl rfl rfl rfl).1⟩

end AICCA